import Mathlib

/-!
# Target proxy convergence (`pkg/loadbalancers/target_proxies.go`)

A shallow embedding of `L7.checkProxy`, `L7.checkHttpsProxy` and
`L7.getSslCertLinkInUse`.

* Go pointers that may be nil are `Option`s; Go `error` values are `Option Err`
  (`none` is the nil error).
* The cloud interface `l.cloud` is a record of functions over an arbitrary remote
  state `σ`.  A read returns the Go pair `(proxy, err)` and does not change the
  remote state; a write returns its error and the next remote state.  No function
  of the file issues two reads without a write in between, so within one
  invocation this allows every sequence of responses.
* Proxies are values.  In `checkProxy` and `checkHttpsProxy` the object handed to a
  write call is taken to be left as it was, as by a client that only sends a
  request; this does not bear on which calls are issued, on the errors or on which
  field of the receiver is assigned.  What the cached handle shows is the subject of
  `Aliased.checkProxy` and `Aliased.checkHttpsProxy`, where the code's pointer is
  followed: the handle is the object that was read, as the write calls left it.
* Every remote call is appended, with the error it returned, to a log carried
  next to the remote state, so that the calls of an invocation can be counted.
* `l.namer.TargetProxy`, `utils.EqualResourceIDs` and `l.compareCerts` live in other
  files; they are parameters of the embedding, the last one as a function of
  `l.sslCerts` and of its argument.
-/

namespace Loadbalancers

/-- A Go `error` value, identified by its message. -/
abbrev Err := String

/-- The constant `TargetProxyCertLimit`: every target https proxy accepts up to 10
ssl certificates. -/
def TargetProxyCertLimit : Nat := 10

/-- The two protocol constants `utils.HTTPProtocol` and `utils.HTTPSProtocol`. -/
inductive Protocol where
  | HTTP
  | HTTPS
  deriving DecidableEq, Repr

/-- The fields of `compute.UrlMap` that the file reads. -/
structure UrlMap where
  Name : String
  SelfLink : String
  deriving DecidableEq, Repr

/-- The fields of `compute.SslCertificate` that the file reads. -/
structure SslCertificate where
  Name : String
  SelfLink : String
  deriving DecidableEq, Repr

/-- The fields of `compute.TargetHttpProxy` that the file reads or sets; `SelfLink` stands
for what the remote side fills in. -/
structure TargetHttpProxy where
  Name : String
  UrlMap : String
  SelfLink : String := ""
  deriving DecidableEq, Repr

/-- The fields of `compute.TargetHttpsProxy` that the file reads or sets. -/
structure TargetHttpsProxy where
  Name : String
  UrlMap : String
  SslCertificates : List String := []
  SelfLink : String := ""
  deriving DecidableEq, Repr

/-- The fields of the receiver `L7` that the three functions read or assign. -/
structure L7 where
  Name : String
  um : Option UrlMap
  tp : Option TargetHttpProxy
  tps : Option TargetHttpsProxy
  sslCerts : List SslCertificate
  deriving DecidableEq, Repr

/-- One remote call, with its arguments. -/
inductive Call where
  | GetTargetHttpProxy (name : String)
  | CreateTargetHttpProxy (proxy : TargetHttpProxy)
  | SetUrlMapForTargetHttpProxy (proxy : TargetHttpProxy) (urlMapLink : String)
  | GetTargetHttpsProxy (name : String)
  | CreateTargetHttpsProxy (proxy : TargetHttpsProxy)
  | SetUrlMapForTargetHttpsProxy (proxy : TargetHttpsProxy) (urlMapLink : String)
  | SetSslCertificateForTargetHttpsProxy (proxy : TargetHttpsProxy) (sslCertURLs : List String)
  deriving DecidableEq, Repr

/-- A call is a write when it is not one of the two reads. -/
def Call.isWrite : Call → Bool
  | Call.GetTargetHttpProxy _ => false
  | Call.GetTargetHttpsProxy _ => false
  | _ => true

/-- A logged remote call together with the error it returned. -/
structure Event where
  call : Call
  err : Option Err
  deriving DecidableEq, Repr

/-- The part of the cloud interface used by the file, over a remote state `σ`. -/
structure Cloud (σ : Type) where
  GetTargetHttpProxy : σ → String → Option TargetHttpProxy × Option Err
  CreateTargetHttpProxy : σ → TargetHttpProxy → Option Err × σ
  SetUrlMapForTargetHttpProxy : σ → TargetHttpProxy → String → Option Err × σ
  GetTargetHttpsProxy : σ → String → Option TargetHttpsProxy × Option Err
  CreateTargetHttpsProxy : σ → TargetHttpsProxy → Option Err × σ
  SetUrlMapForTargetHttpsProxy : σ → TargetHttpsProxy → String → Option Err × σ
  SetSslCertificateForTargetHttpsProxy : σ → TargetHttpsProxy → List String → Option Err × σ

/-- The collaborators of an `L7`: its namer `l.namer.TargetProxy`, its cloud `l.cloud`, and
the two comparison helpers defined elsewhere in the repository, `utils.EqualResourceIDs`
and the method `l.compareCerts`.  The comparator is taken as a function of the desired
certificates `l.sslCerts` and of the remote list it is called with. -/
structure Env (σ : Type) where
  TargetProxy : String → Protocol → String
  EqualResourceIDs : String → String → Bool
  compareCerts : List SslCertificate → List String → Bool
  cloud : Cloud σ

/-- The remote state together with the log of the calls issued so far. -/
structure World (σ : Type) where
  remote : σ
  log : List Event

/-- What a check leaves behind: the returned error, the receiver and the world. -/
structure Result (σ : Type) where
  err : Option Err
  l : L7
  world : World σ

variable {σ : Type}

/-- Append one event to the log. -/
def World.record (w : World σ) (c : Call) (e : Option Err) : World σ :=
  { w with log := w.log ++ [⟨c, e⟩] }

/-- Logged `l.cloud.GetTargetHttpProxy(name)`. -/
def getTargetHttpProxy (c : Cloud σ) (w : World σ) (name : String) :
    (Option TargetHttpProxy × Option Err) × World σ :=
  let r := c.GetTargetHttpProxy w.remote name
  (r, w.record (Call.GetTargetHttpProxy name) r.2)

/-- Logged `l.cloud.CreateTargetHttpProxy(proxy)`. -/
def createTargetHttpProxy (c : Cloud σ) (w : World σ) (proxy : TargetHttpProxy) :
    Option Err × World σ :=
  let r := c.CreateTargetHttpProxy w.remote proxy
  (r.1, { remote := r.2, log := w.log ++ [⟨Call.CreateTargetHttpProxy proxy, r.1⟩] })

/-- Logged `l.cloud.SetUrlMapForTargetHttpProxy(proxy, urlMapLink)`. -/
def setUrlMapForTargetHttpProxy (c : Cloud σ) (w : World σ) (proxy : TargetHttpProxy)
    (urlMapLink : String) : Option Err × World σ :=
  let r := c.SetUrlMapForTargetHttpProxy w.remote proxy urlMapLink
  (r.1, { remote := r.2,
          log := w.log ++ [⟨Call.SetUrlMapForTargetHttpProxy proxy urlMapLink, r.1⟩] })

/-- Logged `l.cloud.GetTargetHttpsProxy(name)`. -/
def getTargetHttpsProxy (c : Cloud σ) (w : World σ) (name : String) :
    (Option TargetHttpsProxy × Option Err) × World σ :=
  let r := c.GetTargetHttpsProxy w.remote name
  (r, w.record (Call.GetTargetHttpsProxy name) r.2)

/-- Logged `l.cloud.CreateTargetHttpsProxy(proxy)`. -/
def createTargetHttpsProxy (c : Cloud σ) (w : World σ) (proxy : TargetHttpsProxy) :
    Option Err × World σ :=
  let r := c.CreateTargetHttpsProxy w.remote proxy
  (r.1, { remote := r.2, log := w.log ++ [⟨Call.CreateTargetHttpsProxy proxy, r.1⟩] })

/-- Logged `l.cloud.SetUrlMapForTargetHttpsProxy(proxy, urlMapLink)`. -/
def setUrlMapForTargetHttpsProxy (c : Cloud σ) (w : World σ) (proxy : TargetHttpsProxy)
    (urlMapLink : String) : Option Err × World σ :=
  let r := c.SetUrlMapForTargetHttpsProxy w.remote proxy urlMapLink
  (r.1, { remote := r.2,
          log := w.log ++ [⟨Call.SetUrlMapForTargetHttpsProxy proxy urlMapLink, r.1⟩] })

/-- Logged `l.cloud.SetSslCertificateForTargetHttpsProxy(proxy, sslCertURLs)`. -/
def setSslCertificateForTargetHttpsProxy (c : Cloud σ) (w : World σ)
    (proxy : TargetHttpsProxy) (sslCertURLs : List String) : Option Err × World σ :=
  let r := c.SetSslCertificateForTargetHttpsProxy w.remote proxy sslCertURLs
  (r.1, { remote := r.2,
          log := w.log ++ [⟨Call.SetSslCertificateForTargetHttpsProxy proxy sslCertURLs, r.1⟩] })

/-- The loop `for _, c := range l.sslCerts { xs = append(xs, c.SelfLink) }`, started
from the nil slice. -/
def certLinks (certs : List SslCertificate) : List String :=
  certs.foldl (fun acc c => acc ++ [c.SelfLink]) []

/-- The error of `checkProxy` when `l.um` is nil. -/
def errNoUrlMap : Err := "cannot create proxy without urlmap"

/-- The error of `checkHttpsProxy` when `l.um` is nil. -/
def errNoUrlMapHttps (name : String) : Err :=
  "no UrlMap for " ++ name ++ ", will not create HTTPS proxy"

/-- The literal `&compute.TargetHttpProxy{Name: proxyName, UrlMap: l.um.SelfLink}`. -/
def newTargetHttpProxy (proxyName : String) (um : UrlMap) : TargetHttpProxy :=
  { Name := proxyName, UrlMap := um.SelfLink }

/-- The literal `&compute.TargetHttpsProxy{Name: proxyName, UrlMap: l.um.SelfLink}` after
the loop that appends the link of every certificate to its `SslCertificates`. -/
def newTargetHttpsProxy (proxyName : String) (um : UrlMap) (certs : List SslCertificate) :
    TargetHttpsProxy :=
  { Name := proxyName, UrlMap := um.SelfLink, SslCertificates := certLinks certs }

/-- The method `L7.checkProxy`. -/
def checkProxy (env : Env σ) (l : L7) (w : World σ) : Result σ :=
  match l.um with
  | none => ⟨some errNoUrlMap, l, w⟩
  | some um =>
    let proxyName := env.TargetProxy l.Name Protocol.HTTP
    let r := getTargetHttpProxy env.cloud w proxyName
    match r.1.1 with
    | none =>
      let newProxy := newTargetHttpProxy proxyName um
      let c := createTargetHttpProxy env.cloud r.2 newProxy
      match c.1 with
      | some err => ⟨some err, l, c.2⟩
      | none =>
        let r2 := getTargetHttpProxy env.cloud c.2 proxyName
        match r2.1.2 with
        | some err => ⟨some err, l, r2.2⟩
        | none => ⟨none, { l with tp := r2.1.1 }, r2.2⟩
    | some proxy =>
      if !env.EqualResourceIDs proxy.UrlMap um.SelfLink then
        let s := setUrlMapForTargetHttpProxy env.cloud r.2 proxy um.SelfLink
        match s.1 with
        | some err => ⟨some err, l, s.2⟩
        | none => ⟨none, { l with tp := some proxy }, s.2⟩
      else
        ⟨none, { l with tp := some proxy }, r.2⟩

/-- The tail of `checkHttpsProxy` after the URL-map step: the certificate comparison,
the replace call when it reports a mismatch, and the assignment of `l.tps`. -/
def checkHttpsCerts (env : Env σ) (l : L7) (proxy : TargetHttpsProxy) (w : World σ) :
    Result σ :=
  if !env.compareCerts l.sslCerts proxy.SslCertificates then
    let sslCertURLs := certLinks l.sslCerts
    let s := setSslCertificateForTargetHttpsProxy env.cloud w proxy sslCertURLs
    match s.1 with
    | some err => ⟨some err, l, s.2⟩
    | none => ⟨none, { l with tps := some proxy }, s.2⟩
  else
    ⟨none, { l with tps := some proxy }, w⟩

/-- The method `L7.checkHttpsProxy`. -/
def checkHttpsProxy (env : Env σ) (l : L7) (w : World σ) : Result σ :=
  if l.sslCerts.length = 0 then
    ⟨none, l, w⟩
  else
    match l.um with
    | none => ⟨some (errNoUrlMapHttps l.Name), l, w⟩
    | some um =>
      let proxyName := env.TargetProxy l.Name Protocol.HTTPS
      let r := getTargetHttpsProxy env.cloud w proxyName
      match r.1.1 with
      | none =>
        let newProxy := newTargetHttpsProxy proxyName um l.sslCerts
        let c := createTargetHttpsProxy env.cloud r.2 newProxy
        match c.1 with
        | some err => ⟨some err, l, c.2⟩
        | none =>
          let r2 := getTargetHttpsProxy env.cloud c.2 proxyName
          match r2.1.2 with
          | some err => ⟨some err, l, r2.2⟩
          | none => ⟨none, { l with tps := r2.1.1 }, r2.2⟩
      | some proxy =>
        if !env.EqualResourceIDs proxy.UrlMap um.SelfLink then
          let s := setUrlMapForTargetHttpsProxy env.cloud r.2 proxy um.SelfLink
          match s.1 with
          | some err => ⟨some err, l, s.2⟩
          | none => checkHttpsCerts env l proxy s.2
        else
          checkHttpsCerts env l proxy r.2

/-- The three ways `getSslCertLinkInUse` can end: a list with a nil error, a nil list
with an error, or a nil-pointer dereference at `proxy.SslCertificates`. -/
inductive CertLinkResult where
  | links (certs : List String)
  | error (err : Err)
  | nilDereference
  deriving DecidableEq, Repr

/-- The method `L7.getSslCertLinkInUse`, with the world it leaves. -/
def getSslCertLinkInUse (env : Env σ) (l : L7) (w : World σ) : CertLinkResult × World σ :=
  let proxyName := env.TargetProxy l.Name Protocol.HTTPS
  let r := getTargetHttpsProxy env.cloud w proxyName
  match r.1.2 with
  | some err => (CertLinkResult.error err, r.2)
  | none =>
    match r.1.1 with
    | none => (CertLinkResult.nilDereference, r.2)
    | some proxy => (CertLinkResult.links proxy.SslCertificates, r.2)

/-! ## The handle as a pointer

`checkProxy` reads a `*compute.TargetHttpProxy`, hands that pointer to
`SetUrlMapForTargetHttpProxy` and then stores the same pointer in `l.tp`; likewise for
`l.tps`.  A cloud may update the object it is handed, so what the handle shows after a
write is the object as the call left it. -/

/-- What each write call of the present branch leaves in the object it is handed, given
the remote state before the call and the call's arguments. -/
structure InPlace (σ : Type) where
  SetUrlMapForTargetHttpProxy : σ → TargetHttpProxy → String → TargetHttpProxy
  SetUrlMapForTargetHttpsProxy : σ → TargetHttpsProxy → String → TargetHttpsProxy
  SetSslCertificateForTargetHttpsProxy : σ → TargetHttpsProxy → List String → TargetHttpsProxy

/-- A client that leaves the object untouched: it only sends the request. -/
def InPlace.untouched : InPlace σ where
  SetUrlMapForTargetHttpProxy _ proxy _ := proxy
  SetUrlMapForTargetHttpsProxy _ proxy _ := proxy
  SetSslCertificateForTargetHttpsProxy _ proxy _ := proxy

/-- A client that also sets the field in the object it is handed, as an in-memory
cloud that hands out its own objects does. -/
def InPlace.updated : InPlace σ where
  SetUrlMapForTargetHttpProxy _ proxy urlMapLink := { proxy with UrlMap := urlMapLink }
  SetUrlMapForTargetHttpsProxy _ proxy urlMapLink := { proxy with UrlMap := urlMapLink }
  SetSslCertificateForTargetHttpsProxy _ proxy sslCertURLs :=
    { proxy with SslCertificates := sslCertURLs }

/-- The method `L7.checkProxy`, with the pointer `proxy` followed through the rebind:
`l.tp = proxy` records the object as `SetUrlMapForTargetHttpProxy` left it. -/
def Aliased.checkProxy (env : Env σ) (ip : InPlace σ) (l : L7) (w : World σ) : Result σ :=
  match l.um with
  | none => ⟨some errNoUrlMap, l, w⟩
  | some um =>
    let proxyName := env.TargetProxy l.Name Protocol.HTTP
    let r := getTargetHttpProxy env.cloud w proxyName
    match r.1.1 with
    | none =>
      let newProxy := newTargetHttpProxy proxyName um
      let c := createTargetHttpProxy env.cloud r.2 newProxy
      match c.1 with
      | some err => ⟨some err, l, c.2⟩
      | none =>
        let r2 := getTargetHttpProxy env.cloud c.2 proxyName
        match r2.1.2 with
        | some err => ⟨some err, l, r2.2⟩
        | none => ⟨none, { l with tp := r2.1.1 }, r2.2⟩
    | some proxy =>
      if !env.EqualResourceIDs proxy.UrlMap um.SelfLink then
        let s := setUrlMapForTargetHttpProxy env.cloud r.2 proxy um.SelfLink
        match s.1 with
        | some err => ⟨some err, l, s.2⟩
        | none =>
          let handle := ip.SetUrlMapForTargetHttpProxy r.2.remote proxy um.SelfLink
          ⟨none, { l with tp := some handle }, s.2⟩
      else
        ⟨none, { l with tp := some proxy }, r.2⟩

/-- The tail of `checkHttpsProxy` after the URL-map step, with the pointer followed:
the comparison reads the object as it is now, and `l.tps = proxy` records it as
`SetSslCertificateForTargetHttpsProxy` left it. -/
def Aliased.checkHttpsCerts (env : Env σ) (ip : InPlace σ) (l : L7)
    (proxy : TargetHttpsProxy) (w : World σ) : Result σ :=
  if !env.compareCerts l.sslCerts proxy.SslCertificates then
    let sslCertURLs := certLinks l.sslCerts
    let s := setSslCertificateForTargetHttpsProxy env.cloud w proxy sslCertURLs
    match s.1 with
    | some err => ⟨some err, l, s.2⟩
    | none =>
      let handle := ip.SetSslCertificateForTargetHttpsProxy w.remote proxy sslCertURLs
      ⟨none, { l with tps := some handle }, s.2⟩
  else
    ⟨none, { l with tps := some proxy }, w⟩

/-- The method `L7.checkHttpsProxy`, with the pointer `proxy` followed through the
rebind and the certificate replace. -/
def Aliased.checkHttpsProxy (env : Env σ) (ip : InPlace σ) (l : L7) (w : World σ) :
    Result σ :=
  if l.sslCerts.length = 0 then
    ⟨none, l, w⟩
  else
    match l.um with
    | none => ⟨some (errNoUrlMapHttps l.Name), l, w⟩
    | some um =>
      let proxyName := env.TargetProxy l.Name Protocol.HTTPS
      let r := getTargetHttpsProxy env.cloud w proxyName
      match r.1.1 with
      | none =>
        let newProxy := newTargetHttpsProxy proxyName um l.sslCerts
        let c := createTargetHttpsProxy env.cloud r.2 newProxy
        match c.1 with
        | some err => ⟨some err, l, c.2⟩
        | none =>
          let r2 := getTargetHttpsProxy env.cloud c.2 proxyName
          match r2.1.2 with
          | some err => ⟨some err, l, r2.2⟩
          | none => ⟨none, { l with tps := r2.1.1 }, r2.2⟩
      | some proxy =>
        if !env.EqualResourceIDs proxy.UrlMap um.SelfLink then
          let s := setUrlMapForTargetHttpsProxy env.cloud r.2 proxy um.SelfLink
          match s.1 with
          | some err => ⟨some err, l, s.2⟩
          | none =>
            Aliased.checkHttpsCerts env ip l
              (ip.SetUrlMapForTargetHttpsProxy r.2.remote proxy um.SelfLink) s.2
        else
          Aliased.checkHttpsCerts env ip l proxy r.2

/-! ## A remote store

The claims about repeated invocations speak of a remote store in which writes take
effect.  Such a store is modelled here, with lookups by the `Name` field; a plan of
outcomes for the coming write calls lets a write be rejected. -/

/-- Modelled from the spec: the remote side as a store of proxy resources ("all state
lives remotely"), with `faults` the outcomes of the coming write calls (`some e`
rejects the write with `e` and leaves the resources as they are). -/
structure Store where
  Tp : List TargetHttpProxy
  Tps : List TargetHttpsProxy
  faults : List (Option Err)
  deriving DecidableEq, Repr

/-- The error of a read that finds nothing (`NotFoundError` in the spec). -/
def errNotFound : Err := "googleapi: Error 404: not found"

/-- Modelled from the spec: a write is rejected when the plan says so, and otherwise
takes effect. -/
def Store.write (s : Store) (effect : Store → Store) : Option Err × Store :=
  match s.faults with
  | [] => (none, effect s)
  | none :: rest => (none, effect { s with faults := rest })
  | some e :: rest => (some e, { s with faults := rest })

/-- Modelled from the spec: the Remote State Accessor over a `Store`.  A read returns
what was last written under the name, or `NotFoundError`; creation adds the resource;
the URL-map and certificate calls replace the field of the resource of that name. -/
def storeCloud : Cloud Store where
  GetTargetHttpProxy s name :=
    match s.Tp.find? (fun p => p.Name == name) with
    | some p => (some p, none)
    | none => (none, some errNotFound)
  CreateTargetHttpProxy s proxy := s.write (fun t => { t with Tp := t.Tp ++ [proxy] })
  SetUrlMapForTargetHttpProxy s proxy urlMapLink :=
    s.write (fun t => { t with Tp := t.Tp.map (fun q =>
      if q.Name == proxy.Name then { q with UrlMap := urlMapLink } else q) })
  GetTargetHttpsProxy s name :=
    match s.Tps.find? (fun p => p.Name == name) with
    | some p => (some p, none)
    | none => (none, some errNotFound)
  CreateTargetHttpsProxy s proxy := s.write (fun t => { t with Tps := t.Tps ++ [proxy] })
  SetUrlMapForTargetHttpsProxy s proxy urlMapLink :=
    s.write (fun t => { t with Tps := t.Tps.map (fun q =>
      if q.Name == proxy.Name then { q with UrlMap := urlMapLink } else q) })
  SetSslCertificateForTargetHttpsProxy s proxy sslCertURLs :=
    s.write (fun t => { t with Tps := t.Tps.map (fun q =>
      if q.Name == proxy.Name then { q with SslCertificates := sslCertURLs } else q) })

/-- The collaborators of an `L7` whose cloud is the store. -/
def storeEnv (namer : String → Protocol → String) (eqIDs : String → String → Bool)
    (cmp : List SslCertificate → List String → Bool) : Env Store :=
  { TargetProxy := namer, EqualResourceIDs := eqIDs, compareCerts := cmp, cloud := storeCloud }

/-- The write calls among the events logged after the first `n`. -/
def writesAfter (n : Nat) (w : World σ) : List Call :=
  ((w.log.drop n).map Event.call).filter Call.isWrite

/-- The calls logged after the first `n`. -/
def callsAfter (n : Nat) (w : World σ) : List Call :=
  (w.log.drop n).map Event.call

/-- Which calls `checkHttpsProxy` can log: the read, the create of the new resource, a
rebind to the URL map's link, a replace with the links of all certificates. -/
def HttpsCallShape (env : Env σ) (l : L7) (um : UrlMap) (c : Call) : Prop :=
  c = Call.GetTargetHttpsProxy (env.TargetProxy l.Name Protocol.HTTPS) ∨
  c = Call.CreateTargetHttpsProxy
        (newTargetHttpsProxy (env.TargetProxy l.Name Protocol.HTTPS) um l.sslCerts) ∨
  (∃ p, c = Call.SetUrlMapForTargetHttpsProxy p um.SelfLink) ∨
  (∃ p, c = Call.SetSslCertificateForTargetHttpsProxy p (certLinks l.sslCerts))

/-! ## Example inputs -/

/-- Modelled from the spec: the Certificate Set Comparator, true iff the desired and the
remote references are the same up to order, with multiplicity. -/
def certsMatch (desired : List SslCertificate) (remote : List String) : Bool :=
  (desired.map SslCertificate.SelfLink).isPerm remote

/-- An example namer: the load-balancer name with the protocol as a suffix. -/
def exampleNamer (name : String) : Protocol → String
  | Protocol.HTTP => name ++ "-http"
  | Protocol.HTTPS => name ++ "-https"

/-- An example environment over the store: literal equality of links and the
order-insensitive certificate comparison. -/
def exampleEnv : Env Store := storeEnv exampleNamer (fun a b => a == b) certsMatch

/-- A certificate named `n`, with the name as its link. -/
def cert (n : String) : SslCertificate := { Name := n, SelfLink := n }

/-- A URL map named `n`, with the name as its link. -/
def urlMap (n : String) : UrlMap := { Name := n, SelfLink := n }

/-- An empty remote store with an empty log. -/
def emptyWorld : World Store := { remote := { Tp := [], Tps := [], faults := [] }, log := [] }

/-- A cloud whose reads fail with a transport error until the first write has been
made: the remote state counts the writes. -/
def outageCloud : Cloud Nat where
  GetTargetHttpProxy s name :=
    if s = 0 then (none, some "googleapi: Error 503: backend unavailable")
    else (some { Name := name, UrlMap := "um-1" }, none)
  CreateTargetHttpProxy s _ := (none, s + 1)
  SetUrlMapForTargetHttpProxy s _ _ := (none, s + 1)
  GetTargetHttpsProxy s name :=
    if s = 0 then (none, some "googleapi: Error 503: backend unavailable")
    else (some { Name := name, UrlMap := "um-1", SslCertificates := ["c1"] }, none)
  CreateTargetHttpsProxy s _ := (none, s + 1)
  SetUrlMapForTargetHttpsProxy s _ _ := (none, s + 1)
  SetSslCertificateForTargetHttpsProxy s _ _ := (none, s + 1)

/-- The example collaborators over the cloud with the read outage. -/
def outageEnv : Env Nat :=
  { TargetProxy := exampleNamer, EqualResourceIDs := fun a b => a == b,
    compareCerts := certsMatch, cloud := outageCloud }

/-- A load balancer without a URL map and without certificates. -/
def lbBare : L7 := { Name := "lb", um := none, tp := none, tps := none, sslCerts := [] }

/-- A load balancer without a URL map whose certificate list is not empty. -/
def lbNoUrlMap : L7 :=
  { Name := "lb", um := none, tp := none, tps := none, sslCerts := [cert "c1"] }

/-- A load balancer with URL map `um-1` and no certificates. -/
def lbPlain : L7 :=
  { Name := "lb", um := some (urlMap "um-1"), tp := none, tps := none, sslCerts := [] }

/-- A load balancer with URL map `um-new` and the certificates `c1`, `c3`. -/
def lbTls : L7 :=
  { Name := "lb", um := some (urlMap "um-new"), tp := none, tps := none,
    sslCerts := [cert "c1", cert "c3"] }

/-- The plain proxy of `lb`, bound to `um-old`. -/
def oldProxy : TargetHttpProxy := { Name := "lb-http", UrlMap := "um-old" }

/-- The TLS proxy of `lb`, bound to `um-old` with the certificate `c1`. -/
def oldTlsProxy : TargetHttpsProxy :=
  { Name := "lb-https", UrlMap := "um-old", SslCertificates := ["c1"] }

/-- A store that holds both proxies of `lb`, bound to `um-old`; the log is empty. -/
def staleWorld : World Store :=
  { remote := { Tp := [oldProxy], Tps := [oldTlsProxy], faults := [] }, log := [] }

/-- A load balancer with URL map `um-new` and eleven certificates. -/
def lbEleven : L7 :=
  { Name := "lb", um := some (urlMap "um-new"), tp := none, tps := none,
    sslCerts := [cert "c1", cert "c2", cert "c3", cert "c4", cert "c5", cert "c6",
      cert "c7", cert "c8", cert "c9", cert "c10", cert "c11"] }

/-- The links of the eleven certificates of `lbEleven`. -/
def elevenLinks : List String :=
  ["c1", "c2", "c3", "c4", "c5", "c6", "c7", "c8", "c9", "c10", "c11"]

/-- A load balancer with URL map `um-new` and no certificates. -/
def lbNew : L7 :=
  { Name := "lb", um := some (urlMap "um-new"), tp := none, tps := none, sslCerts := [] }

/-- The store of `staleWorld`, about to reject the next write. -/
def faultyWorld : World Store :=
  { remote := { Tp := [oldProxy], Tps := [oldTlsProxy],
                faults := [some "googleapi: Error 403: quota exceeded"] },
    log := [] }

/-- The cloud with the read outage, before any write, with an empty log. -/
def outageWorld : World Nat := { remote := 0, log := [] }

/-- A load balancer with URL map `um-1` and the certificates `c2`, `c1` (Scenario B). -/
def lbSwapped : L7 :=
  { Name := "lb", um := some (urlMap "um-1"), tp := none, tps := none,
    sslCerts := [cert "c2", cert "c1"] }

/-- The TLS proxy of `lb`, bound to `um-1` with the certificates `c1`, `c2`. -/
def matchingTlsProxy : TargetHttpsProxy :=
  { Name := "lb-https", UrlMap := "um-1", SslCertificates := ["c1", "c2"] }

/-- A store that holds the TLS proxy of Scenario B; the log is empty. -/
def matchingWorld : World Store :=
  { remote := { Tp := [], Tps := [matchingTlsProxy], faults := [] }, log := [] }

/-- A cloud over the store whose HTTPS read answers with a nil proxy and a nil error when
it finds nothing. -/
def silentCloud : Cloud Store :=
  { storeCloud with
    GetTargetHttpsProxy := fun s name =>
      match s.Tps.find? (fun p => p.Name == name) with
      | some p => (some p, none)
      | none => (none, none) }

/-- The example collaborators over the cloud that reports an absent proxy without an
error. -/
def silentEnv : Env Store :=
  { TargetProxy := exampleNamer, EqualResourceIDs := fun a b => a == b,
    compareCerts := certsMatch, cloud := silentCloud }

/-! ## Lemmas on the embedding and on the store -/

/-- The append loop over the certificates yields their links in the given order. -/
theorem certLinks_eq_map (certs : List SslCertificate) :
    certLinks certs = certs.map SslCertificate.SelfLink := by
  have key : ∀ (cs : List SslCertificate) (acc : List String),
      cs.foldl (fun acc c => acc ++ [c.SelfLink]) acc
        = acc ++ cs.map SslCertificate.SelfLink := by
    intro cs
    induction cs with
    | nil => intro acc; simp
    | cons c cs ih => intro acc; simp [List.foldl_cons, ih]
  simpa [certLinks] using key certs []

/-- The certificate step never assigns `l.tp`. -/
theorem checkHttpsCerts_tp (env : Env σ) (l : L7) (proxy : TargetHttpsProxy) (w : World σ) :
    (checkHttpsCerts env l proxy w).l.tp = l.tp := by
  cases hcmp : env.compareCerts l.sslCerts proxy.SslCertificates
  · rcases hcert : env.cloud.SetSslCertificateForTargetHttpsProxy w.remote proxy
      (certLinks l.sslCerts) with ⟨_ | ce, s1⟩ <;>
    simp [checkHttpsCerts, setSslCertificateForTargetHttpsProxy, hcmp, hcert]
  · simp [checkHttpsCerts, hcmp]

/-- When the certificate step fails, the receiver is untouched and the failing call is
the certificate replace, logged last. -/
theorem checkHttpsCerts_err (env : Env σ) (l : L7) (proxy : TargetHttpsProxy) (w : World σ)
    (e : Err) (h : (checkHttpsCerts env l proxy w).err = some e) :
    (checkHttpsCerts env l proxy w).l = l ∧
    (checkHttpsCerts env l proxy w).world.log = w.log ++
      [⟨Call.SetSslCertificateForTargetHttpsProxy proxy (certLinks l.sslCerts), some e⟩] := by
  cases hcmp : env.compareCerts l.sslCerts proxy.SslCertificates
  · rcases hcert : env.cloud.SetSslCertificateForTargetHttpsProxy w.remote proxy
      (certLinks l.sslCerts) with ⟨_ | ce, s1⟩ <;>
    simp [checkHttpsCerts, setSslCertificateForTargetHttpsProxy, hcmp, hcert] at h ⊢
    exact h
  · simp [checkHttpsCerts, hcmp] at h

/-- On every path `checkProxy` keeps `l.tps`. -/
theorem checkProxy_keeps_tps (env : Env σ) (l : L7) (w : World σ) :
    (checkProxy env l w).l.tps = l.tps := by
  cases hum : l.um with
  | none => simp [checkProxy, hum]
  | some um =>
    rcases hread : env.cloud.GetTargetHttpProxy w.remote
      (env.TargetProxy l.Name Protocol.HTTP) with ⟨_ | p, e0⟩
    · rcases hcreate : env.cloud.CreateTargetHttpProxy w.remote
        (newTargetHttpProxy (env.TargetProxy l.Name Protocol.HTTP) um) with ⟨_ | ce, s1⟩
      · rcases hre : env.cloud.GetTargetHttpProxy s1
          (env.TargetProxy l.Name Protocol.HTTP) with ⟨p2, _ | re⟩ <;>
        simp [checkProxy, hum, getTargetHttpProxy, createTargetHttpProxy, World.record,
          hread, hcreate, hre]
      · simp [checkProxy, hum, getTargetHttpProxy, createTargetHttpProxy, World.record,
          hread, hcreate]
    · cases heq : env.EqualResourceIDs p.UrlMap um.SelfLink
      · rcases hset : env.cloud.SetUrlMapForTargetHttpProxy w.remote p um.SelfLink
          with ⟨_ | se, s1⟩ <;>
        simp [checkProxy, hum, getTargetHttpProxy, setUrlMapForTargetHttpProxy,
          World.record, hread, heq, hset]
      · simp [checkProxy, hum, getTargetHttpProxy, World.record, hread, heq]

/-- On every path `checkHttpsProxy` keeps `l.tp`. -/
theorem checkHttpsProxy_keeps_tp (env : Env σ) (l : L7) (w : World σ) :
    (checkHttpsProxy env l w).l.tp = l.tp := by
  rcases hcs : l.sslCerts with _ | ⟨c0, cs⟩
  · simp [checkHttpsProxy, hcs]
  · cases hum : l.um with
    | none => simp [checkHttpsProxy, hcs, hum]
    | some um =>
      rcases hread : env.cloud.GetTargetHttpsProxy w.remote
        (env.TargetProxy l.Name Protocol.HTTPS) with ⟨_ | p, e0⟩
      · rcases hcreate : env.cloud.CreateTargetHttpsProxy w.remote
          (newTargetHttpsProxy (env.TargetProxy l.Name Protocol.HTTPS) um (c0 :: cs))
          with ⟨_ | ce, s1⟩
        · rcases hre : env.cloud.GetTargetHttpsProxy s1
            (env.TargetProxy l.Name Protocol.HTTPS) with ⟨p2, _ | re⟩ <;>
          simp [checkHttpsProxy, hcs, hum, getTargetHttpsProxy, createTargetHttpsProxy,
            World.record, hread, hcreate, hre]
        · simp [checkHttpsProxy, hcs, hum, getTargetHttpsProxy, createTargetHttpsProxy,
            World.record, hread, hcreate]
      · cases heq : env.EqualResourceIDs p.UrlMap um.SelfLink
        · rcases hset : env.cloud.SetUrlMapForTargetHttpsProxy w.remote p um.SelfLink
            with ⟨_ | se, s1⟩ <;>
          simp [checkHttpsProxy, hcs, hum, getTargetHttpsProxy,
            setUrlMapForTargetHttpsProxy, World.record, hread, heq, hset,
            checkHttpsCerts_tp]
        · simp [checkHttpsProxy, hcs, hum, getTargetHttpsProxy, World.record, hread, heq,
            checkHttpsCerts_tp]

/-- When `checkProxy` returns an error the receiver is untouched, and the error is the
missing-URL-map error or that of the last logged call, after the initial read. -/
theorem checkProxy_err_shape (env : Env σ) (l : L7) (w : World σ) (e : Err)
    (herr : (checkProxy env l w).err = some e) :
    (checkProxy env l w).l = l ∧
    ((l.um = none ∧ e = errNoUrlMap ∧ (checkProxy env l w).world = w) ∨
     (∃ e0 mid c, (checkProxy env l w).world.log = w.log ++
          (⟨Call.GetTargetHttpProxy (env.TargetProxy l.Name Protocol.HTTP), e0⟩ ::
            (mid ++ [⟨c, some e⟩])) ∧
        (∀ ev ∈ mid, ev.err = none) ∧
        (env.cloud.GetTargetHttpProxy w.remote (env.TargetProxy l.Name Protocol.HTTP)).2
          = e0)) := by
  cases hum : l.um with
  | none =>
    simp [checkProxy, hum] at herr ⊢
    exact herr.symm
  | some um =>
    rcases hread : env.cloud.GetTargetHttpProxy w.remote
      (env.TargetProxy l.Name Protocol.HTTP) with ⟨_ | p, e0⟩
    · rcases hcreate : env.cloud.CreateTargetHttpProxy w.remote
        (newTargetHttpProxy (env.TargetProxy l.Name Protocol.HTTP) um) with ⟨_ | ce, s1⟩
      · rcases hre : env.cloud.GetTargetHttpProxy s1
          (env.TargetProxy l.Name Protocol.HTTP) with ⟨p2, _ | re⟩ <;>
        simp [checkProxy, hum, getTargetHttpProxy, createTargetHttpProxy, World.record,
          hread, hcreate, hre] at herr ⊢
        subst herr
        exact ⟨e0, [⟨Call.CreateTargetHttpProxy
          (newTargetHttpProxy (env.TargetProxy l.Name Protocol.HTTP) um), none⟩],
          ⟨rfl, _, rfl⟩, by simp, rfl⟩
      · simp [checkProxy, hum, getTargetHttpProxy, createTargetHttpProxy, World.record,
          hread, hcreate] at herr ⊢
        subst herr
        exact ⟨e0, [], ⟨rfl, _, rfl⟩, by simp, rfl⟩
    · cases heq : env.EqualResourceIDs p.UrlMap um.SelfLink
      · rcases hset : env.cloud.SetUrlMapForTargetHttpProxy w.remote p um.SelfLink
          with ⟨_ | se, s1⟩ <;>
        simp [checkProxy, hum, getTargetHttpProxy, setUrlMapForTargetHttpProxy,
          World.record, hread, heq, hset] at herr ⊢
        subst herr
        exact ⟨e0, [], ⟨rfl, _, rfl⟩, by simp, rfl⟩
      · simp [checkProxy, hum, getTargetHttpProxy, World.record, hread, heq] at herr

/-- When `checkHttpsProxy` returns an error the receiver is untouched, and the error is the
missing-URL-map error or that of the last logged call, after the initial read. -/
theorem checkHttpsProxy_err_shape (env : Env σ) (l : L7) (w : World σ) (e : Err)
    (herr : (checkHttpsProxy env l w).err = some e) :
    (checkHttpsProxy env l w).l = l ∧
    ((l.um = none ∧ e = errNoUrlMapHttps l.Name ∧ (checkHttpsProxy env l w).world = w) ∨
     (∃ e0 mid c, (checkHttpsProxy env l w).world.log = w.log ++
          (⟨Call.GetTargetHttpsProxy (env.TargetProxy l.Name Protocol.HTTPS), e0⟩ ::
            (mid ++ [⟨c, some e⟩])) ∧
        (∀ ev ∈ mid, ev.err = none) ∧
        (env.cloud.GetTargetHttpsProxy w.remote (env.TargetProxy l.Name Protocol.HTTPS)).2
          = e0)) := by
  rcases hcs : l.sslCerts with _ | ⟨c0, cs⟩
  · simp [checkHttpsProxy, hcs] at herr
  · cases hum : l.um with
    | none =>
      simp [checkHttpsProxy, hcs, hum] at herr ⊢
      exact herr.symm
    | some um =>
      rcases hread : env.cloud.GetTargetHttpsProxy w.remote
        (env.TargetProxy l.Name Protocol.HTTPS) with ⟨_ | p, e0⟩
      · rcases hcreate : env.cloud.CreateTargetHttpsProxy w.remote
          (newTargetHttpsProxy (env.TargetProxy l.Name Protocol.HTTPS) um (c0 :: cs))
          with ⟨_ | ce, s1⟩
        · rcases hre : env.cloud.GetTargetHttpsProxy s1
            (env.TargetProxy l.Name Protocol.HTTPS) with ⟨p2, _ | re⟩ <;>
          simp [checkHttpsProxy, hcs, hum, getTargetHttpsProxy, createTargetHttpsProxy,
            World.record, hread, hcreate, hre] at herr ⊢
          subst herr
          exact ⟨e0, [⟨Call.CreateTargetHttpsProxy
            (newTargetHttpsProxy (env.TargetProxy l.Name Protocol.HTTPS) um (c0 :: cs)),
            none⟩], ⟨rfl, _, rfl⟩, by simp, rfl⟩
        · simp [checkHttpsProxy, hcs, hum, getTargetHttpsProxy, createTargetHttpsProxy,
            World.record, hread, hcreate] at herr ⊢
          subst herr
          exact ⟨e0, [], ⟨rfl, _, rfl⟩, by simp, rfl⟩
      · cases heq : env.EqualResourceIDs p.UrlMap um.SelfLink
        · rcases hset : env.cloud.SetUrlMapForTargetHttpsProxy w.remote p um.SelfLink
            with ⟨_ | se, s1⟩
          · have hrun : checkHttpsProxy env l w = checkHttpsCerts env l p
                { remote := s1, log := w.log ++
                    [⟨Call.GetTargetHttpsProxy (env.TargetProxy l.Name Protocol.HTTPS), e0⟩,
                     ⟨Call.SetUrlMapForTargetHttpsProxy p um.SelfLink, none⟩] } := by
              simp [checkHttpsProxy, hcs, hum, getTargetHttpsProxy,
                setUrlMapForTargetHttpsProxy, World.record, hread, heq, hset]
            rw [hrun] at herr ⊢
            obtain ⟨hl, hlog⟩ := checkHttpsCerts_err env l p _ e herr
            refine ⟨hl, Or.inr ⟨e0, [⟨Call.SetUrlMapForTargetHttpsProxy p um.SelfLink, none⟩],
              Call.SetSslCertificateForTargetHttpsProxy p (certLinks l.sslCerts),
              ?_, by simp, rfl⟩⟩
            rw [hlog]; simp
          · simp [checkHttpsProxy, hcs, hum, getTargetHttpsProxy,
              setUrlMapForTargetHttpsProxy, World.record, hread, heq, hset] at herr ⊢
            subst herr
            exact ⟨e0, [], ⟨rfl, _, rfl⟩, by simp, rfl⟩
        · have hrun : checkHttpsProxy env l w = checkHttpsCerts env l p
              { remote := w.remote, log := w.log ++
                  [⟨Call.GetTargetHttpsProxy (env.TargetProxy l.Name Protocol.HTTPS), e0⟩] } := by
            simp [checkHttpsProxy, hcs, hum, getTargetHttpsProxy, World.record, hread, heq]
          rw [hrun] at herr ⊢
          obtain ⟨hl, hlog⟩ := checkHttpsCerts_err env l p _ e herr
          refine ⟨hl, Or.inr ⟨e0, [],
            Call.SetSslCertificateForTargetHttpsProxy p (certLinks l.sslCerts),
            ?_, by simp, rfl⟩⟩
          rw [hlog]; simp

/-- The certificate step logs nothing, or one certificate replace with the links of all
certificates. -/
theorem checkHttpsCerts_log (env : Env σ) (l : L7) (proxy : TargetHttpsProxy) (w : World σ) :
    (checkHttpsCerts env l proxy w).world.log = w.log ∨
    ∃ e, (checkHttpsCerts env l proxy w).world.log = w.log ++
      [⟨Call.SetSslCertificateForTargetHttpsProxy proxy (certLinks l.sslCerts), e⟩] := by
  cases hcmp : env.compareCerts l.sslCerts proxy.SslCertificates
  · rcases hcert : env.cloud.SetSslCertificateForTargetHttpsProxy w.remote proxy
      (certLinks l.sslCerts) with ⟨_ | ce, s1⟩ <;>
    simp [checkHttpsCerts, setSslCertificateForTargetHttpsProxy, hcmp, hcert]
  · simp [checkHttpsCerts, hcmp]

/-- The log of `checkHttpsProxy` grows by calls of the four admitted shapes only. -/
theorem checkHttpsProxy_log_shape (env : Env σ) (l : L7) (w : World σ) (um : UrlMap)
    (hum : l.um = some um) :
    ∃ new, (checkHttpsProxy env l w).world.log = w.log ++ new ∧
      ∀ ev ∈ new, HttpsCallShape env l um ev.call := by
  rcases hcs : l.sslCerts with _ | ⟨c0, cs⟩
  · exact ⟨[], by simp [checkHttpsProxy, hcs], by simp⟩
  · rcases hread : env.cloud.GetTargetHttpsProxy w.remote
      (env.TargetProxy l.Name Protocol.HTTPS) with ⟨_ | p, e0⟩
    · rcases hcreate : env.cloud.CreateTargetHttpsProxy w.remote
        (newTargetHttpsProxy (env.TargetProxy l.Name Protocol.HTTPS) um (c0 :: cs))
        with ⟨_ | ce, s1⟩
      · rcases hre : env.cloud.GetTargetHttpsProxy s1
          (env.TargetProxy l.Name Protocol.HTTPS) with ⟨p2, _ | re⟩ <;>
        refine ⟨_, by
          simp [checkHttpsProxy, hcs, hum, getTargetHttpsProxy, createTargetHttpsProxy,
            World.record, hread, hcreate, hre]
          rfl, ?_⟩ <;>
        simp [HttpsCallShape, hcs]
      · refine ⟨_, by
          simp [checkHttpsProxy, hcs, hum, getTargetHttpsProxy, createTargetHttpsProxy,
            World.record, hread, hcreate]
          rfl, ?_⟩
        simp [HttpsCallShape, hcs]
    · cases heq : env.EqualResourceIDs p.UrlMap um.SelfLink
      · rcases hset : env.cloud.SetUrlMapForTargetHttpsProxy w.remote p um.SelfLink
          with ⟨_ | se, s1⟩
        · have hrun : checkHttpsProxy env l w = checkHttpsCerts env l p
              { remote := s1, log := w.log ++
                  [⟨Call.GetTargetHttpsProxy (env.TargetProxy l.Name Protocol.HTTPS), e0⟩,
                   ⟨Call.SetUrlMapForTargetHttpsProxy p um.SelfLink, none⟩] } := by
            simp [checkHttpsProxy, hcs, hum, getTargetHttpsProxy,
              setUrlMapForTargetHttpsProxy, World.record, hread, heq, hset]
          rw [hrun]
          rcases checkHttpsCerts_log env l p
              { remote := s1, log := w.log ++
                  [⟨Call.GetTargetHttpsProxy (env.TargetProxy l.Name Protocol.HTTPS), e0⟩,
                   ⟨Call.SetUrlMapForTargetHttpsProxy p um.SelfLink, none⟩] }
            with hlog | ⟨e, hlog⟩
          · exact ⟨_, hlog, by simp [HttpsCallShape]⟩
          · refine ⟨_, by rw [hlog, List.append_assoc], ?_⟩
            simp [HttpsCallShape]
        · refine ⟨_, by
            simp [checkHttpsProxy, hcs, hum, getTargetHttpsProxy,
              setUrlMapForTargetHttpsProxy, World.record, hread, heq, hset]
            rfl, ?_⟩
          simp [HttpsCallShape]
      · have hrun : checkHttpsProxy env l w = checkHttpsCerts env l p
            { remote := w.remote, log := w.log ++
                [⟨Call.GetTargetHttpsProxy (env.TargetProxy l.Name Protocol.HTTPS), e0⟩] } := by
          simp [checkHttpsProxy, hcs, hum, getTargetHttpsProxy, World.record, hread, heq]
        rw [hrun]
        rcases checkHttpsCerts_log env l p
            { remote := w.remote, log := w.log ++
                [⟨Call.GetTargetHttpsProxy (env.TargetProxy l.Name Protocol.HTTPS), e0⟩] }
          with hlog | ⟨e, hlog⟩
        · exact ⟨_, hlog, by simp [HttpsCallShape]⟩
        · refine ⟨_, by rw [hlog, List.append_assoc], ?_⟩
          simp [HttpsCallShape]

/-- When the read returns a proxy whose URL map is accepted, `checkProxy` only records
the handle: no call besides the read, no change of the remote state, the nil error. -/
theorem checkProxy_converged (env : Env σ) (l : L7) (w : World σ) (um : UrlMap)
    (p : TargetHttpProxy) (e0 : Option Err) (hum : l.um = some um)
    (hread : env.cloud.GetTargetHttpProxy w.remote (env.TargetProxy l.Name Protocol.HTTP)
      = (some p, e0))
    (heq : env.EqualResourceIDs p.UrlMap um.SelfLink = true) :
    checkProxy env l w = ⟨none, { l with tp := some p },
      { remote := w.remote, log := w.log ++
          [⟨Call.GetTargetHttpProxy (env.TargetProxy l.Name Protocol.HTTP), e0⟩] }⟩ := by
  simp [checkProxy, hum, getTargetHttpProxy, World.record, hread, heq]

/-- When the read returns a proxy whose URL map and certificates are accepted,
`checkHttpsProxy` only records the handle. -/
theorem checkHttpsProxy_converged (env : Env σ) (l : L7) (w : World σ) (um : UrlMap)
    (p : TargetHttpsProxy) (e0 : Option Err) (hum : l.um = some um) (hne : l.sslCerts ≠ [])
    (hread : env.cloud.GetTargetHttpsProxy w.remote (env.TargetProxy l.Name Protocol.HTTPS)
      = (some p, e0))
    (heq : env.EqualResourceIDs p.UrlMap um.SelfLink = true)
    (hcmp : env.compareCerts l.sslCerts p.SslCertificates = true) :
    checkHttpsProxy env l w = ⟨none, { l with tps := some p },
      { remote := w.remote, log := w.log ++
          [⟨Call.GetTargetHttpsProxy (env.TargetProxy l.Name Protocol.HTTPS), e0⟩] }⟩ := by
  have hlen : ¬ l.sslCerts.length = 0 := by
    simpa [List.length_eq_zero] using hne
  simp [checkHttpsProxy, checkHttpsCerts, hum, hlen, getTargetHttpsProxy, World.record,
    hread, heq, hcmp]

/-- A lookup that succeeds returns an element satisfying the test. -/
theorem find_name {α : Type} (f : α → String) (xs : List α) (name : String) (p : α)
    (h : xs.find? (fun q => f q == name) = some p) : f p = name := by
  have := List.find?_some h
  simpa using this

/-- After appending an element with the looked-up name to a list that has none, the
lookup returns it. -/
theorem find_append_new {α : Type} (f : α → String) (xs : List α) (name : String) (x : α)
    (h : xs.find? (fun q => f q == name) = none) (hx : f x = name) :
    (xs ++ [x]).find? (fun q => f q == name) = some x := by
  simp [List.find?_append, h, hx]

/-- After an update that keeps the names, the lookup returns the updated element. -/
theorem find_map_update {α : Type} (f : α → String) (g : α → α) (xs : List α)
    (name : String) (p : α) (hg : ∀ q, f (g q) = f q)
    (h : xs.find? (fun q => f q == name) = some p) :
    (xs.map g).find? (fun q => f q == name) = some (g p) := by
  have hcomp : ((fun q => f q == name) ∘ g) = (fun q => f q == name) := by
    funext q
    simp [hg]
  rw [List.find?_map, hcomp, h]
  rfl

/-- A write that returns no error has applied its effect, at most consuming a planned
outcome. -/
theorem Store.write_ok (s : Store) (effect : Store → Store)
    (h : (s.write effect).1 = none) :
    ∃ fs, (s.write effect).2 = effect { s with faults := fs } := by
  rcases s with ⟨tp, tps, _ | ⟨_ | e, rest⟩⟩
  · exact ⟨[], rfl⟩
  · exact ⟨rest, rfl⟩
  · simp [Store.write] at h

/-- A write that returns the nil error leaves the store with its effect applied. -/
theorem Store.write_ok_eq (s s1 : Store) (effect : Store → Store)
    (h : s.write effect = (none, s1)) :
    ∃ fs, s1 = effect { s with faults := fs } := by
  obtain ⟨fs, hfs⟩ := Store.write_ok s effect (by rw [h])
  exact ⟨fs, by rw [← hfs, h]⟩

/-- The receiver returned by `checkProxy` differs from the given one in `tp` at most. -/
theorem checkProxy_frame (env : Env σ) (l : L7) (w : World σ) :
    (checkProxy env l w).l = { l with tp := (checkProxy env l w).l.tp } := by
  rcases l with ⟨n, _ | um, tp, tps, certs⟩
  · simp [checkProxy]
  · rcases hread : env.cloud.GetTargetHttpProxy w.remote
      (env.TargetProxy n Protocol.HTTP) with ⟨_ | p, e0⟩
    · rcases hcreate : env.cloud.CreateTargetHttpProxy w.remote
        (newTargetHttpProxy (env.TargetProxy n Protocol.HTTP) um) with ⟨_ | ce, s1⟩
      · rcases hre : env.cloud.GetTargetHttpProxy s1
          (env.TargetProxy n Protocol.HTTP) with ⟨p2, _ | re⟩ <;>
        simp [checkProxy, getTargetHttpProxy, createTargetHttpProxy, World.record,
          hread, hcreate, hre]
      · simp [checkProxy, getTargetHttpProxy, createTargetHttpProxy, World.record,
          hread, hcreate]
    · cases heq : env.EqualResourceIDs p.UrlMap um.SelfLink
      · rcases hset : env.cloud.SetUrlMapForTargetHttpProxy w.remote p um.SelfLink
          with ⟨_ | se, s1⟩ <;>
        simp [checkProxy, getTargetHttpProxy, setUrlMapForTargetHttpProxy,
          World.record, hread, heq, hset]
      · simp [checkProxy, getTargetHttpProxy, World.record, hread, heq]

/-- Over the store, after `checkProxy` has returned the nil error, the store holds under
the namer's name a proxy whose URL map is the link of `l.um`. -/
theorem store_first_run_http (namer : String → Protocol → String)
    (eqIDs : String → String → Bool) (cmp : List SslCertificate → List String → Bool)
    (l : L7) (w : World Store) (um : UrlMap) (hum : l.um = some um)
    (h1 : (checkProxy (storeEnv namer eqIDs cmp) l w).err = none) :
    ∃ q, (checkProxy (storeEnv namer eqIDs cmp) l w).world.remote.Tp.find?
        (fun p => p.Name == namer l.Name Protocol.HTTP) = some q ∧
      (q.UrlMap = um.SelfLink ∨ eqIDs q.UrlMap um.SelfLink = true) := by
  cases hfind : w.remote.Tp.find? (fun p => p.Name == namer l.Name Protocol.HTTP) with
  | none =>
    have hread : storeCloud.GetTargetHttpProxy w.remote (namer l.Name Protocol.HTTP)
        = (none, some errNotFound) := by
      simp [storeCloud, hfind]
    rcases hcreate : storeCloud.CreateTargetHttpProxy w.remote
      (newTargetHttpProxy (namer l.Name Protocol.HTTP) um) with ⟨_ | ce, s1⟩
    · obtain ⟨fs, hs1⟩ := Store.write_ok_eq w.remote s1
        (fun t => { t with Tp := t.Tp ++ [newTargetHttpProxy (namer l.Name Protocol.HTTP) um] })
        hcreate
      have hfind1 : s1.Tp.find? (fun p => p.Name == namer l.Name Protocol.HTTP)
          = some (newTargetHttpProxy (namer l.Name Protocol.HTTP) um) := by
        rw [hs1]
        exact find_append_new TargetHttpProxy.Name _ _
          (newTargetHttpProxy (namer l.Name Protocol.HTTP) um) hfind rfl
      have hre : storeCloud.GetTargetHttpProxy s1 (namer l.Name Protocol.HTTP)
          = (some (newTargetHttpProxy (namer l.Name Protocol.HTTP) um), none) := by
        simp [storeCloud, hfind1]
      refine ⟨newTargetHttpProxy (namer l.Name Protocol.HTTP) um, ?_, Or.inl rfl⟩
      simp [checkProxy, storeEnv, hum, getTargetHttpProxy, createTargetHttpProxy,
        World.record, hread, hcreate, hre, hfind1]
    · simp [checkProxy, storeEnv, hum, getTargetHttpProxy, createTargetHttpProxy,
        World.record, hread, hcreate] at h1
  | some p =>
    have hread : storeCloud.GetTargetHttpProxy w.remote (namer l.Name Protocol.HTTP)
        = (some p, none) := by
      simp [storeCloud, hfind]
    cases heq : eqIDs p.UrlMap um.SelfLink
    · rcases hset : storeCloud.SetUrlMapForTargetHttpProxy w.remote p um.SelfLink
        with ⟨_ | se, s1⟩
      · obtain ⟨fs, hs1⟩ := Store.write_ok_eq w.remote s1
          (fun t => { t with Tp := t.Tp.map (fun q =>
            if q.Name == p.Name then { q with UrlMap := um.SelfLink } else q) })
          hset
        have hfind1 := find_map_update TargetHttpProxy.Name
          (fun q => if q.Name == p.Name then { q with UrlMap := um.SelfLink } else q)
          w.remote.Tp _ p (by intro q; dsimp only; split <;> rfl) hfind
        refine ⟨{ p with UrlMap := um.SelfLink }, ?_, Or.inl rfl⟩
        simp [checkProxy, storeEnv, hum, getTargetHttpProxy, setUrlMapForTargetHttpProxy,
          World.record, hread, heq, hset]
        rw [hs1]
        simpa using hfind1
      · simp [checkProxy, storeEnv, hum, getTargetHttpProxy, setUrlMapForTargetHttpProxy,
          World.record, hread, heq, hset] at h1
    · refine ⟨p, ?_, Or.inr heq⟩
      simp [checkProxy, storeEnv, hum, getTargetHttpProxy, World.record, hread, heq, hfind]

/-- The receiver returned by the certificate step differs in `tps` at most. -/
theorem checkHttpsCerts_frame (env : Env σ) (l : L7) (proxy : TargetHttpsProxy)
    (w : World σ) :
    (checkHttpsCerts env l proxy w).l = { l with tps := (checkHttpsCerts env l proxy w).l.tps } := by
  rcases l with ⟨n, um, tp, tps, certs⟩
  cases hcmp : env.compareCerts certs proxy.SslCertificates
  · rcases hcert : env.cloud.SetSslCertificateForTargetHttpsProxy w.remote proxy
      (certLinks certs) with ⟨_ | ce, s1⟩ <;>
    simp [checkHttpsCerts, setSslCertificateForTargetHttpsProxy, hcmp, hcert]
  · simp [checkHttpsCerts, hcmp]

/-- The receiver returned by `checkHttpsProxy` differs from the given one in `tps` at
most. -/
theorem checkHttpsProxy_frame (env : Env σ) (l : L7) (w : World σ) :
    (checkHttpsProxy env l w).l = { l with tps := (checkHttpsProxy env l w).l.tps } := by
  rcases l with ⟨n, _ | um, tp, tps, _ | ⟨c0, cs⟩⟩
  · simp [checkHttpsProxy]
  · simp [checkHttpsProxy]
  · simp [checkHttpsProxy]
  · rcases hread : env.cloud.GetTargetHttpsProxy w.remote
      (env.TargetProxy n Protocol.HTTPS) with ⟨_ | p, e0⟩
    · rcases hcreate : env.cloud.CreateTargetHttpsProxy w.remote
        (newTargetHttpsProxy (env.TargetProxy n Protocol.HTTPS) um (c0 :: cs))
        with ⟨_ | ce, s1⟩
      · rcases hre : env.cloud.GetTargetHttpsProxy s1
          (env.TargetProxy n Protocol.HTTPS) with ⟨p2, _ | re⟩ <;>
        simp [checkHttpsProxy, getTargetHttpsProxy, createTargetHttpsProxy,
          World.record, hread, hcreate, hre]
      · simp [checkHttpsProxy, getTargetHttpsProxy, createTargetHttpsProxy,
          World.record, hread, hcreate]
    · cases heq : env.EqualResourceIDs p.UrlMap um.SelfLink
      · rcases hset : env.cloud.SetUrlMapForTargetHttpsProxy w.remote p um.SelfLink
          with ⟨_ | se, s1⟩
        · simp only [checkHttpsProxy, getTargetHttpsProxy,
            setUrlMapForTargetHttpsProxy, World.record, hread, heq, hset]
          simp only [List.length_cons, Nat.add_one_ne_zero, if_false, Bool.not_false, if_true]
          exact checkHttpsCerts_frame env _ p _
        · simp [checkHttpsProxy, getTargetHttpsProxy,
            setUrlMapForTargetHttpsProxy, World.record, hread, heq, hset]
      · simp only [checkHttpsProxy, getTargetHttpsProxy, World.record, hread, heq]
        simp only [List.length_cons, Nat.add_one_ne_zero, if_false, Bool.not_true]
        exact checkHttpsCerts_frame env _ p _

/-- Over the store, when the certificate step returns the nil error, the stored proxy of
that name keeps its URL map and carries a certificate list that is the desired one or
that the comparator accepts. -/
theorem store_certs_step (namer : String → Protocol → String)
    (eqIDs : String → String → Bool) (cmp : List SslCertificate → List String → Bool)
    (l : L7) (p q : TargetHttpsProxy) (w : World Store) (name : String)
    (hq : w.remote.Tps.find? (fun r => r.Name == name) = some q) (hp : p.Name = name)
    (hcerts : q.SslCertificates = p.SslCertificates)
    (h : (checkHttpsCerts (storeEnv namer eqIDs cmp) l p w).err = none) :
    ∃ q', (checkHttpsCerts (storeEnv namer eqIDs cmp) l p w).world.remote.Tps.find?
        (fun r => r.Name == name) = some q' ∧ q'.UrlMap = q.UrlMap ∧
      (q'.SslCertificates = l.sslCerts.map SslCertificate.SelfLink ∨
        cmp l.sslCerts q'.SslCertificates = true) := by
  have hqn : q.Name = name := find_name TargetHttpsProxy.Name _ _ _ hq
  cases hcmp : cmp l.sslCerts p.SslCertificates
  · rcases hcert : storeCloud.SetSslCertificateForTargetHttpsProxy w.remote p
      (certLinks l.sslCerts) with ⟨_ | ce, s1⟩
    · obtain ⟨fs, hs1⟩ := Store.write_ok_eq w.remote s1
        (fun t => { t with Tps := t.Tps.map (fun r =>
          if r.Name == p.Name then { r with SslCertificates := certLinks l.sslCerts } else r) })
        hcert
      have hfind1 := find_map_update TargetHttpsProxy.Name
        (fun r => if r.Name == p.Name then
          { r with SslCertificates := certLinks l.sslCerts } else r)
        w.remote.Tps _ q (by intro r; dsimp only; split <;> rfl) hq
      refine ⟨{ q with SslCertificates := certLinks l.sslCerts }, ?_, rfl,
        Or.inl (certLinks_eq_map _)⟩
      simp [checkHttpsCerts, storeEnv, setSslCertificateForTargetHttpsProxy, hcmp, hcert]
      rw [hs1]
      simpa [hqn, hp] using hfind1
    · simp [checkHttpsCerts, storeEnv, setSslCertificateForTargetHttpsProxy, hcmp, hcert] at h
  · refine ⟨q, ?_, rfl, Or.inr (by rw [hcerts]; exact hcmp)⟩
    simp [checkHttpsCerts, storeEnv, hcmp, hq]

/-- With an empty certificate list `checkHttpsProxy` returns at once. -/
theorem checkHttpsProxy_empty_run (env : Env σ) (l : L7) (w : World σ)
    (h : l.sslCerts = []) : checkHttpsProxy env l w = ⟨none, l, w⟩ := by
  simp [checkHttpsProxy, h]

/-- Over the store, after `checkHttpsProxy` with a non-empty certificate list has
returned the nil error, the store holds under the namer's name a proxy whose URL map is
the link of `l.um` or accepted as such, and whose certificates are the desired links or
accepted by the comparator. -/
theorem store_first_run_https (namer : String → Protocol → String)
    (eqIDs : String → String → Bool) (cmp : List SslCertificate → List String → Bool)
    (l : L7) (w : World Store) (um : UrlMap) (hum : l.um = some um)
    (hne : l.sslCerts ≠ [])
    (h1 : (checkHttpsProxy (storeEnv namer eqIDs cmp) l w).err = none) :
    ∃ q, (checkHttpsProxy (storeEnv namer eqIDs cmp) l w).world.remote.Tps.find?
        (fun p => p.Name == namer l.Name Protocol.HTTPS) = some q ∧
      (q.UrlMap = um.SelfLink ∨ eqIDs q.UrlMap um.SelfLink = true) ∧
      (q.SslCertificates = l.sslCerts.map SslCertificate.SelfLink ∨
        cmp l.sslCerts q.SslCertificates = true) := by
  have hlen : ¬ l.sslCerts.length = 0 := by
    simpa [List.length_eq_zero] using hne
  cases hfind : w.remote.Tps.find? (fun p => p.Name == namer l.Name Protocol.HTTPS) with
  | none =>
    have hread : storeCloud.GetTargetHttpsProxy w.remote (namer l.Name Protocol.HTTPS)
        = (none, some errNotFound) := by
      simp [storeCloud, hfind]
    rcases hcreate : storeCloud.CreateTargetHttpsProxy w.remote
      (newTargetHttpsProxy (namer l.Name Protocol.HTTPS) um l.sslCerts) with ⟨_ | ce, s1⟩
    · obtain ⟨fs, hs1⟩ := Store.write_ok_eq w.remote s1
        (fun t => { t with Tps := t.Tps ++
          [newTargetHttpsProxy (namer l.Name Protocol.HTTPS) um l.sslCerts] })
        hcreate
      have hfind1 : s1.Tps.find? (fun p => p.Name == namer l.Name Protocol.HTTPS)
          = some (newTargetHttpsProxy (namer l.Name Protocol.HTTPS) um l.sslCerts) := by
        rw [hs1]
        exact find_append_new TargetHttpsProxy.Name _ _
          (newTargetHttpsProxy (namer l.Name Protocol.HTTPS) um l.sslCerts) hfind rfl
      have hre : storeCloud.GetTargetHttpsProxy s1 (namer l.Name Protocol.HTTPS)
          = (some (newTargetHttpsProxy (namer l.Name Protocol.HTTPS) um l.sslCerts), none) := by
        simp [storeCloud, hfind1]
      refine ⟨newTargetHttpsProxy (namer l.Name Protocol.HTTPS) um l.sslCerts, ?_,
        Or.inl rfl, Or.inl (certLinks_eq_map _)⟩
      simp [checkHttpsProxy, storeEnv, hum, hlen, getTargetHttpsProxy,
        createTargetHttpsProxy, World.record, hread, hcreate, hre, hfind1]
    · simp [checkHttpsProxy, storeEnv, hum, hlen, getTargetHttpsProxy,
        createTargetHttpsProxy, World.record, hread, hcreate] at h1
  | some p =>
    have hpn : p.Name = namer l.Name Protocol.HTTPS :=
      find_name TargetHttpsProxy.Name _ _ _ hfind
    have hread : storeCloud.GetTargetHttpsProxy w.remote (namer l.Name Protocol.HTTPS)
        = (some p, none) := by
      simp [storeCloud, hfind]
    cases heq : eqIDs p.UrlMap um.SelfLink
    · rcases hset : storeCloud.SetUrlMapForTargetHttpsProxy w.remote p um.SelfLink
        with ⟨_ | se, s1⟩
      · obtain ⟨fs, hs1⟩ := Store.write_ok_eq w.remote s1
          (fun t => { t with Tps := t.Tps.map (fun q =>
            if q.Name == p.Name then { q with UrlMap := um.SelfLink } else q) })
          hset
        have hfind1 := find_map_update TargetHttpsProxy.Name
          (fun q => if q.Name == p.Name then { q with UrlMap := um.SelfLink } else q)
          w.remote.Tps _ p (by intro q; dsimp only; split <;> rfl) hfind
        have hfind2 : s1.Tps.find? (fun r => r.Name == namer l.Name Protocol.HTTPS)
            = some { p with UrlMap := um.SelfLink } := by
          rw [hs1]
          simpa using hfind1
        have hrun : checkHttpsProxy (storeEnv namer eqIDs cmp) l w
            = checkHttpsCerts (storeEnv namer eqIDs cmp) l p
              { remote := s1, log := w.log ++
                  [⟨Call.GetTargetHttpsProxy (namer l.Name Protocol.HTTPS), none⟩,
                   ⟨Call.SetUrlMapForTargetHttpsProxy p um.SelfLink, none⟩] } := by
          simp [checkHttpsProxy, storeEnv, hum, hlen, getTargetHttpsProxy,
            setUrlMapForTargetHttpsProxy, World.record, hread, heq, hset]
        rw [hrun] at h1 ⊢
        obtain ⟨q', hq', hurl, hc⟩ := store_certs_step namer eqIDs cmp l p
          { p with UrlMap := um.SelfLink } _ _ hfind2 hpn rfl h1
        exact ⟨q', hq', Or.inl hurl, hc⟩
      · simp [checkHttpsProxy, storeEnv, hum, hlen, getTargetHttpsProxy,
          setUrlMapForTargetHttpsProxy, World.record, hread, heq, hset] at h1
    · have hrun : checkHttpsProxy (storeEnv namer eqIDs cmp) l w
          = checkHttpsCerts (storeEnv namer eqIDs cmp) l p
            { remote := w.remote, log := w.log ++
                [⟨Call.GetTargetHttpsProxy (namer l.Name Protocol.HTTPS), none⟩] } := by
        simp [checkHttpsProxy, storeEnv, hum, hlen, getTargetHttpsProxy, World.record,
          hread, heq]
      rw [hrun] at h1 ⊢
      obtain ⟨q', hq', hurl, hc⟩ := store_certs_step namer eqIDs cmp l p p
        { remote := w.remote, log := w.log ++
            [⟨Call.GetTargetHttpsProxy (namer l.Name Protocol.HTTPS), none⟩] } _
        hfind hpn rfl h1
      exact ⟨q', hq', Or.inr (by rw [hurl]; exact heq), hc⟩

/-- With a client that leaves the object untouched, following the pointer gives
`checkProxy`. -/
theorem untouched_checkProxy (env : Env σ) (l : L7) (w : World σ) :
    Aliased.checkProxy env InPlace.untouched l w = checkProxy env l w := by
  rfl

/-- With a client that leaves the object untouched, following the pointer gives
`checkHttpsProxy`. -/
theorem untouched_checkHttpsProxy (env : Env σ) (l : L7) (w : World σ) :
    Aliased.checkHttpsProxy env InPlace.untouched l w = checkHttpsProxy env l w := by
  rfl

/-- In the present branch, a successful `checkProxy` records the object that was read,
as it is when no rebind was needed and as the rebind call left it otherwise. -/
theorem Aliased.checkProxy_present (env : Env σ) (ip : InPlace σ) (l : L7) (w : World σ)
    (um : UrlMap) (p : TargetHttpProxy) (e0 : Option Err) (hum : l.um = some um)
    (hread : env.cloud.GetTargetHttpProxy w.remote (env.TargetProxy l.Name Protocol.HTTP)
      = (some p, e0))
    (h1 : (Aliased.checkProxy env ip l w).err = none) :
    (Aliased.checkProxy env ip l w).l.tp =
      some (if env.EqualResourceIDs p.UrlMap um.SelfLink then p
            else ip.SetUrlMapForTargetHttpProxy w.remote p um.SelfLink) := by
  cases heq : env.EqualResourceIDs p.UrlMap um.SelfLink
  · rcases hset : env.cloud.SetUrlMapForTargetHttpProxy w.remote p um.SelfLink
      with ⟨_ | se, s1⟩
    · simp [Aliased.checkProxy, hum, getTargetHttpProxy, setUrlMapForTargetHttpProxy,
        World.record, hread, heq, hset]
    · simp [Aliased.checkProxy, hum, getTargetHttpProxy, setUrlMapForTargetHttpProxy,
        World.record, hread, heq, hset] at h1
  · simp [Aliased.checkProxy, hum, getTargetHttpProxy, World.record, hread, heq]

/-- A successful certificate step records the object it was given, as it is when the
comparator accepted it and as the replace call left it otherwise. -/
theorem Aliased.checkHttpsCerts_handle (env : Env σ) (ip : InPlace σ) (l : L7)
    (p : TargetHttpsProxy) (w : World σ)
    (h1 : (Aliased.checkHttpsCerts env ip l p w).err = none) :
    (Aliased.checkHttpsCerts env ip l p w).l.tps =
      some (if env.compareCerts l.sslCerts p.SslCertificates then p
            else ip.SetSslCertificateForTargetHttpsProxy w.remote p
              (l.sslCerts.map SslCertificate.SelfLink)) := by
  cases hcmp : env.compareCerts l.sslCerts p.SslCertificates
  · rcases hcert : env.cloud.SetSslCertificateForTargetHttpsProxy w.remote p
      (l.sslCerts.map SslCertificate.SelfLink) with ⟨_ | ce, s1⟩
    · simp [Aliased.checkHttpsCerts, setSslCertificateForTargetHttpsProxy, hcmp, hcert,
        certLinks_eq_map]
    · simp [Aliased.checkHttpsCerts, setSslCertificateForTargetHttpsProxy, hcmp, hcert,
        certLinks_eq_map] at h1
  · simp [Aliased.checkHttpsCerts, hcmp]

/-- In the present branch, a successful `checkHttpsProxy` records the object that was
read, after the rebind call (when one was needed) and then the replace call (when one
was needed) have had it. -/
theorem Aliased.checkHttpsProxy_present (env : Env σ) (ip : InPlace σ) (l : L7)
    (w : World σ) (um : UrlMap) (p : TargetHttpsProxy) (e0 : Option Err)
    (hum : l.um = some um) (hne : l.sslCerts ≠ [])
    (hread : env.cloud.GetTargetHttpsProxy w.remote (env.TargetProxy l.Name Protocol.HTTPS)
      = (some p, e0))
    (h1 : (Aliased.checkHttpsProxy env ip l w).err = none) :
    (env.EqualResourceIDs p.UrlMap um.SelfLink = true →
      (Aliased.checkHttpsProxy env ip l w).l.tps =
        some (if env.compareCerts l.sslCerts p.SslCertificates then p
              else ip.SetSslCertificateForTargetHttpsProxy w.remote p
                (l.sslCerts.map SslCertificate.SelfLink))) ∧
    (env.EqualResourceIDs p.UrlMap um.SelfLink = false →
      (Aliased.checkHttpsProxy env ip l w).l.tps =
        some (if env.compareCerts l.sslCerts
                  (ip.SetUrlMapForTargetHttpsProxy w.remote p um.SelfLink).SslCertificates
              then ip.SetUrlMapForTargetHttpsProxy w.remote p um.SelfLink
              else ip.SetSslCertificateForTargetHttpsProxy
                (env.cloud.SetUrlMapForTargetHttpsProxy w.remote p um.SelfLink).2
                (ip.SetUrlMapForTargetHttpsProxy w.remote p um.SelfLink)
                (l.sslCerts.map SslCertificate.SelfLink))) := by
  have hlen : ¬ l.sslCerts.length = 0 := by
    simpa [List.length_eq_zero] using hne
  cases heq : env.EqualResourceIDs p.UrlMap um.SelfLink
  · rcases hset : env.cloud.SetUrlMapForTargetHttpsProxy w.remote p um.SelfLink
      with ⟨_ | se, s1⟩
    · have hrun : Aliased.checkHttpsProxy env ip l w = Aliased.checkHttpsCerts env ip l
          (ip.SetUrlMapForTargetHttpsProxy w.remote p um.SelfLink)
          { remote := s1, log := w.log ++
              [⟨Call.GetTargetHttpsProxy (env.TargetProxy l.Name Protocol.HTTPS), e0⟩,
               ⟨Call.SetUrlMapForTargetHttpsProxy p um.SelfLink, none⟩] } := by
        simp [Aliased.checkHttpsProxy, hum, hlen, getTargetHttpsProxy,
          setUrlMapForTargetHttpsProxy, World.record, hread, heq, hset]
      rw [hrun] at h1 ⊢
      refine ⟨by simp, fun _ => ?_⟩
      exact Aliased.checkHttpsCerts_handle env ip l _ _ h1
    · simp [Aliased.checkHttpsProxy, hum, hlen, getTargetHttpsProxy,
        setUrlMapForTargetHttpsProxy, World.record, hread, heq, hset] at h1
  · have hrun : Aliased.checkHttpsProxy env ip l w = Aliased.checkHttpsCerts env ip l p
        { remote := w.remote, log := w.log ++
            [⟨Call.GetTargetHttpsProxy (env.TargetProxy l.Name Protocol.HTTPS), e0⟩] } := by
      simp [Aliased.checkHttpsProxy, hum, hlen, getTargetHttpsProxy, World.record,
        hread, heq]
    rw [hrun] at h1 ⊢
    refine ⟨fun _ => ?_, by simp⟩
    exact Aliased.checkHttpsCerts_handle env ip l p _ h1

/-- Over the store, a successful `checkProxy` that found no proxy records the created
resource. -/
theorem Aliased.store_create_handle_http (namer : String → Protocol → String)
    (eqIDs : String → String → Bool) (cmp : List SslCertificate → List String → Bool)
    (ip : InPlace Store) (l : L7) (w : World Store) (um : UrlMap) (hum : l.um = some um)
    (hfind : w.remote.Tp.find? (fun p => p.Name == namer l.Name Protocol.HTTP) = none)
    (h1 : (Aliased.checkProxy (storeEnv namer eqIDs cmp) ip l w).err = none) :
    (Aliased.checkProxy (storeEnv namer eqIDs cmp) ip l w).l.tp
      = some (newTargetHttpProxy (namer l.Name Protocol.HTTP) um) := by
  have hread : storeCloud.GetTargetHttpProxy w.remote (namer l.Name Protocol.HTTP)
      = (none, some errNotFound) := by
    simp [storeCloud, hfind]
  rcases hcreate : storeCloud.CreateTargetHttpProxy w.remote
    (newTargetHttpProxy (namer l.Name Protocol.HTTP) um) with ⟨_ | ce, s1⟩
  · obtain ⟨fs, hs1⟩ := Store.write_ok_eq w.remote s1
      (fun t => { t with Tp := t.Tp ++ [newTargetHttpProxy (namer l.Name Protocol.HTTP) um] })
      hcreate
    have hfind1 : s1.Tp.find? (fun p => p.Name == namer l.Name Protocol.HTTP)
        = some (newTargetHttpProxy (namer l.Name Protocol.HTTP) um) := by
      rw [hs1]
      exact find_append_new TargetHttpProxy.Name _ _
        (newTargetHttpProxy (namer l.Name Protocol.HTTP) um) hfind rfl
    have hre : storeCloud.GetTargetHttpProxy s1 (namer l.Name Protocol.HTTP)
        = (some (newTargetHttpProxy (namer l.Name Protocol.HTTP) um), none) := by
      simp [storeCloud, hfind1]
    simp [Aliased.checkProxy, storeEnv, hum, getTargetHttpProxy, createTargetHttpProxy,
      World.record, hread, hcreate, hre]
  · simp [Aliased.checkProxy, storeEnv, hum, getTargetHttpProxy, createTargetHttpProxy,
      World.record, hread, hcreate] at h1

/-- Over the store, a successful `checkHttpsProxy` that found no proxy records the
created resource. -/
theorem Aliased.store_create_handle_https (namer : String → Protocol → String)
    (eqIDs : String → String → Bool) (cmp : List SslCertificate → List String → Bool)
    (ip : InPlace Store) (l : L7) (w : World Store) (um : UrlMap) (hum : l.um = some um)
    (hne : l.sslCerts ≠ [])
    (hfind : w.remote.Tps.find? (fun p => p.Name == namer l.Name Protocol.HTTPS) = none)
    (h1 : (Aliased.checkHttpsProxy (storeEnv namer eqIDs cmp) ip l w).err = none) :
    (Aliased.checkHttpsProxy (storeEnv namer eqIDs cmp) ip l w).l.tps
      = some (newTargetHttpsProxy (namer l.Name Protocol.HTTPS) um l.sslCerts) := by
  have hlen : ¬ l.sslCerts.length = 0 := by
    simpa [List.length_eq_zero] using hne
  have hread : storeCloud.GetTargetHttpsProxy w.remote (namer l.Name Protocol.HTTPS)
      = (none, some errNotFound) := by
    simp [storeCloud, hfind]
  rcases hcreate : storeCloud.CreateTargetHttpsProxy w.remote
    (newTargetHttpsProxy (namer l.Name Protocol.HTTPS) um l.sslCerts) with ⟨_ | ce, s1⟩
  · obtain ⟨fs, hs1⟩ := Store.write_ok_eq w.remote s1
      (fun t => { t with Tps := t.Tps ++
        [newTargetHttpsProxy (namer l.Name Protocol.HTTPS) um l.sslCerts] })
      hcreate
    have hfind1 : s1.Tps.find? (fun p => p.Name == namer l.Name Protocol.HTTPS)
        = some (newTargetHttpsProxy (namer l.Name Protocol.HTTPS) um l.sslCerts) := by
      rw [hs1]
      exact find_append_new TargetHttpsProxy.Name _ _
        (newTargetHttpsProxy (namer l.Name Protocol.HTTPS) um l.sslCerts) hfind rfl
    have hre : storeCloud.GetTargetHttpsProxy s1 (namer l.Name Protocol.HTTPS)
        = (some (newTargetHttpsProxy (namer l.Name Protocol.HTTPS) um l.sslCerts), none) := by
      simp [storeCloud, hfind1]
    simp [Aliased.checkHttpsProxy, storeEnv, hum, hlen, getTargetHttpsProxy,
      createTargetHttpsProxy, World.record, hread, hcreate, hre]
  · simp [Aliased.checkHttpsProxy, storeEnv, hum, hlen, getTargetHttpsProxy,
      createTargetHttpsProxy, World.record, hread, hcreate] at h1

/-- What `getSslCertLinkInUse` does for each answer of the read: it logs the one read
and leaves the remote state as it was; an error of the read is returned; a proxy with a
nil error gives its `SslCertificates`; a nil proxy with a nil error reaches
`proxy.SslCertificates` on the nil pointer. -/
theorem getSslCertLinkInUse_cases (env : Env σ) (l : L7) (w : World σ) :
    (getSslCertLinkInUse env l w).2.remote = w.remote ∧
    (getSslCertLinkInUse env l w).2.log = w.log ++
      [⟨Call.GetTargetHttpsProxy (env.TargetProxy l.Name Protocol.HTTPS),
        (env.cloud.GetTargetHttpsProxy w.remote (env.TargetProxy l.Name Protocol.HTTPS)).2⟩] ∧
    (∀ e, (env.cloud.GetTargetHttpsProxy w.remote
            (env.TargetProxy l.Name Protocol.HTTPS)).2 = some e →
      (getSslCertLinkInUse env l w).1 = CertLinkResult.error e) ∧
    (∀ proxy, env.cloud.GetTargetHttpsProxy w.remote (env.TargetProxy l.Name Protocol.HTTPS)
        = (some proxy, none) →
      (getSslCertLinkInUse env l w).1 = CertLinkResult.links proxy.SslCertificates) ∧
    (env.cloud.GetTargetHttpsProxy w.remote (env.TargetProxy l.Name Protocol.HTTPS)
        = (none, none) →
      (getSslCertLinkInUse env l w).1 = CertLinkResult.nilDereference) := by
  rcases hread : env.cloud.GetTargetHttpsProxy w.remote
    (env.TargetProxy l.Name Protocol.HTTPS) with ⟨_ | p, _ | e⟩ <;>
  simp [getSslCertLinkInUse, getTargetHttpsProxy, World.record, hread]

/-! ## The claims -/

/-- C1, counterexample: with no URL map and an empty certificate list `checkHttpsProxy`
returns the nil error, not an error. -/
theorem checkHttpsProxy_unset_urlmap_empty_certs_nil :
    lbBare.um = none ∧ (checkHttpsProxy exampleEnv lbBare emptyWorld).err = none := by
  constructor <;> rfl

/-- C1, amended: when `l.um` is unset, `checkProxy` returns its missing-URL-map error and
`checkHttpsProxy` returns its own when `l.sslCerts` is not empty and the nil error when it
is empty; in all cases the world (remote state and call log) and the receiver are left
as they were, so no remote call is made. -/
theorem unset_urlmap_gating (env : Env σ) (l : L7) (w : World σ) (h : l.um = none) :
    (checkProxy env l w).err = some errNoUrlMap ∧
    (checkProxy env l w).world = w ∧ (checkProxy env l w).l = l ∧
    (checkHttpsProxy env l w).world = w ∧ (checkHttpsProxy env l w).l = l ∧
    (l.sslCerts ≠ [] → (checkHttpsProxy env l w).err = some (errNoUrlMapHttps l.Name)) ∧
    (l.sslCerts = [] → (checkHttpsProxy env l w).err = none) := by
  refine ⟨?_, ?_, ?_, ?_, ?_, ?_, ?_⟩
  · simp [checkProxy, h]
  · simp [checkProxy, h]
  · simp [checkProxy, h]
  · unfold checkHttpsProxy; rw [h]; split <;> rfl
  · unfold checkHttpsProxy; rw [h]; split <;> rfl
  · intro hne
    have hlen : ¬ l.sslCerts.length = 0 := by
      simpa [List.length_eq_zero] using hne
    simp [checkHttpsProxy, h, hlen]
  · intro he
    simp [checkHttpsProxy, he]

/-- C1, amended, at a load balancer without URL map and with one certificate. -/
theorem unset_urlmap_gating_witness :
    lbNoUrlMap.um = none ∧
    (checkProxy exampleEnv lbNoUrlMap emptyWorld).err = some errNoUrlMap ∧
    (checkHttpsProxy exampleEnv lbNoUrlMap emptyWorld).err
      = some "no UrlMap for lb, will not create HTTPS proxy" ∧
    (checkHttpsProxy exampleEnv lbNoUrlMap emptyWorld).world.log = [] :=
  have h := unset_urlmap_gating exampleEnv lbNoUrlMap emptyWorld rfl
  ⟨rfl, h.1, h.2.2.2.2.2.1 (by decide), by rw [h.2.2.2.1]; rfl⟩

/-- C2, counterexample: with a URL map set and eleven certificates, more than
`TargetProxyCertLimit`, `checkHttpsProxy` returns the nil error; over the empty store it
issues a create carrying all eleven links, and over a store that holds the proxy it
issues a certificate replace carrying all eleven links. -/
theorem eleven_certs_are_attached :
    TargetProxyCertLimit < lbEleven.sslCerts.length ∧
    lbEleven.um = some (urlMap "um-new") ∧
    (checkHttpsProxy exampleEnv lbEleven emptyWorld).err = none ∧
    callsAfter 0 (checkHttpsProxy exampleEnv lbEleven emptyWorld).world =
      [Call.GetTargetHttpsProxy "lb-https",
       Call.CreateTargetHttpsProxy
         { Name := "lb-https", UrlMap := "um-new", SslCertificates := elevenLinks },
       Call.GetTargetHttpsProxy "lb-https"] ∧
    (checkHttpsProxy exampleEnv lbEleven staleWorld).err = none ∧
    callsAfter 0 (checkHttpsProxy exampleEnv lbEleven staleWorld).world =
      [Call.GetTargetHttpsProxy "lb-https",
       Call.SetUrlMapForTargetHttpsProxy oldTlsProxy "um-new",
       Call.SetSslCertificateForTargetHttpsProxy oldTlsProxy elevenLinks] := by
  refine ⟨by decide, rfl, rfl, rfl, rfl, rfl⟩

/-- C2, amended: with a URL map set and an `l.sslCerts` of any length, also above
`TargetProxyCertLimit`, `checkHttpsProxy` makes no check of its own against the limit:
every create and every certificate replace it logs carries the links of all of
`l.sslCerts`, in order and as many as there are certificates, and an error it returns is
the error some logged remote call returned. -/
theorem full_list_is_sent (env : Env σ) (l : L7) (w : World σ) (um : UrlMap)
    (hum : l.um = some um) :
    (∀ c ∈ callsAfter w.log.length (checkHttpsProxy env l w).world,
      (∀ p, c = Call.CreateTargetHttpsProxy p →
        p.SslCertificates = l.sslCerts.map SslCertificate.SelfLink ∧
        p.SslCertificates.length = l.sslCerts.length) ∧
      (∀ p links, c = Call.SetSslCertificateForTargetHttpsProxy p links →
        links = l.sslCerts.map SslCertificate.SelfLink ∧
        links.length = l.sslCerts.length)) ∧
    (∀ e, (checkHttpsProxy env l w).err = some e →
      ∃ ev ∈ (checkHttpsProxy env l w).world.log.drop w.log.length, ev.err = some e) := by
  constructor
  · obtain ⟨new, hlog, hshape⟩ := checkHttpsProxy_log_shape env l w um hum
    intro c hc
    simp only [callsAfter, hlog, List.drop_left, List.mem_map] at hc
    obtain ⟨ev, hev, rfl⟩ := hc
    rcases hshape ev hev with h | h | ⟨q, h⟩ | ⟨q, h⟩ <;>
      simp [h, newTargetHttpsProxy, certLinks_eq_map]
  · intro e herr
    rcases (checkHttpsProxy_err_shape env l w e herr).2 with ⟨hnone, _⟩ | ⟨e0, mid, c, hlog, _, _⟩
    · simp [hum] at hnone
    · exact ⟨⟨c, some e⟩, by simp [hlog], rfl⟩

/-- C2, amended, at eleven certificates over the empty store: the create call that is
logged carries the eleven links. -/
theorem full_list_is_sent_witness :
    lbEleven.um = some (urlMap "um-new") ∧
    Call.CreateTargetHttpsProxy
        { Name := "lb-https", UrlMap := "um-new", SslCertificates := elevenLinks } ∈
      callsAfter emptyWorld.log.length (checkHttpsProxy exampleEnv lbEleven emptyWorld).world ∧
    elevenLinks = lbEleven.sslCerts.map SslCertificate.SelfLink ∧
    elevenLinks.length = lbEleven.sslCerts.length :=
  ⟨rfl, by decide,
   (((full_list_is_sent exampleEnv lbEleven emptyWorld (urlMap "um-new") rfl).1
      (Call.CreateTargetHttpsProxy
        { Name := "lb-https", UrlMap := "um-new", SslCertificates := elevenLinks })
      (by decide)).1 _ rfl)⟩

/-- C3, counterexample: the initial read of `checkProxy` fails with a 503 transport error
(not a not-found); the error is dropped, a create call is issued and the nil error is
returned.  The same happens in `checkHttpsProxy`. -/
theorem read_error_leads_to_create :
    outageCloud.GetTargetHttpProxy 0 "lb-http"
      = (none, some "googleapi: Error 503: backend unavailable") ∧
    (checkProxy outageEnv lbNew outageWorld).err = none ∧
    (checkProxy outageEnv lbNew outageWorld).world.log =
      [⟨Call.GetTargetHttpProxy "lb-http", some "googleapi: Error 503: backend unavailable"⟩,
       ⟨Call.CreateTargetHttpProxy { Name := "lb-http", UrlMap := "um-new" }, none⟩,
       ⟨Call.GetTargetHttpProxy "lb-http", none⟩] ∧
    (checkHttpsProxy outageEnv lbTls outageWorld).err = none ∧
    callsAfter 0 (checkHttpsProxy outageEnv lbTls outageWorld).world =
      [Call.GetTargetHttpsProxy "lb-https",
       Call.CreateTargetHttpsProxy
         { Name := "lb-https", UrlMap := "um-new", SslCertificates := ["c1", "c3"] },
       Call.GetTargetHttpsProxy "lb-https"] := by
  refine ⟨rfl, rfl, rfl, rfl, rfl⟩

/-- C3, amended: with a URL map set (and, for `checkHttpsProxy`, non-empty certificates),
the error of the initial read is discarded and the branch is chosen by the returned
proxy alone: when the read returns no proxy, with a not-found or with any other error,
the create call is logged right after the read; when it returns a proxy, no create call
is logged, whatever error came with it. -/
theorem initial_read_error_discarded (env : Env σ) (l : L7) (w : World σ) (um : UrlMap)
    (hum : l.um = some um) :
    (∀ e0, env.cloud.GetTargetHttpProxy w.remote (env.TargetProxy l.Name Protocol.HTTP)
          = (none, e0) →
      ∃ rest, callsAfter w.log.length (checkProxy env l w).world =
        Call.GetTargetHttpProxy (env.TargetProxy l.Name Protocol.HTTP) ::
        Call.CreateTargetHttpProxy
          (newTargetHttpProxy (env.TargetProxy l.Name Protocol.HTTP) um) :: rest) ∧
    (∀ p e0, env.cloud.GetTargetHttpProxy w.remote (env.TargetProxy l.Name Protocol.HTTP)
          = (some p, e0) →
      ∀ np, Call.CreateTargetHttpProxy np ∉
        callsAfter w.log.length (checkProxy env l w).world) ∧
    (l.sslCerts ≠ [] →
      (∀ e0, env.cloud.GetTargetHttpsProxy w.remote (env.TargetProxy l.Name Protocol.HTTPS)
            = (none, e0) →
        ∃ rest, callsAfter w.log.length (checkHttpsProxy env l w).world =
          Call.GetTargetHttpsProxy (env.TargetProxy l.Name Protocol.HTTPS) ::
          Call.CreateTargetHttpsProxy
            (newTargetHttpsProxy (env.TargetProxy l.Name Protocol.HTTPS) um l.sslCerts) ::
            rest) ∧
      (∀ p e0, env.cloud.GetTargetHttpsProxy w.remote (env.TargetProxy l.Name Protocol.HTTPS)
            = (some p, e0) →
        ∀ np, Call.CreateTargetHttpsProxy np ∉
          callsAfter w.log.length (checkHttpsProxy env l w).world)) := by
  refine ⟨?_, ?_, ?_⟩
  · intro e0 hread
    rcases hcreate : env.cloud.CreateTargetHttpProxy w.remote
      (newTargetHttpProxy (env.TargetProxy l.Name Protocol.HTTP) um) with ⟨_ | ce, s1⟩
    · rcases hre : env.cloud.GetTargetHttpProxy s1
        (env.TargetProxy l.Name Protocol.HTTP) with ⟨p2, _ | re⟩ <;>
      simp [checkProxy, hum, getTargetHttpProxy, createTargetHttpProxy, World.record,
        hread, hcreate, hre, callsAfter]
    · simp [checkProxy, hum, getTargetHttpProxy, createTargetHttpProxy, World.record,
        hread, hcreate, callsAfter]
  · intro p e0 hread np
    cases heq : env.EqualResourceIDs p.UrlMap um.SelfLink
    · rcases hset : env.cloud.SetUrlMapForTargetHttpProxy w.remote p um.SelfLink
        with ⟨_ | se, s1⟩ <;>
      simp [checkProxy, hum, getTargetHttpProxy, setUrlMapForTargetHttpProxy, World.record,
        hread, heq, hset, callsAfter]
    · simp [checkProxy, hum, getTargetHttpProxy, World.record, hread, heq, callsAfter]
  · intro hne
    have hlen : ¬ l.sslCerts.length = 0 := by
      simpa [List.length_eq_zero] using hne
    constructor
    · intro e0 hread
      rcases hcreate : env.cloud.CreateTargetHttpsProxy w.remote
        (newTargetHttpsProxy (env.TargetProxy l.Name Protocol.HTTPS) um l.sslCerts)
        with ⟨_ | ce, s1⟩
      · rcases hre : env.cloud.GetTargetHttpsProxy s1
          (env.TargetProxy l.Name Protocol.HTTPS) with ⟨p2, _ | re⟩ <;>
        simp [checkHttpsProxy, hum, hlen, getTargetHttpsProxy, createTargetHttpsProxy,
          World.record, hread, hcreate, hre, callsAfter]
      · simp [checkHttpsProxy, hum, hlen, getTargetHttpsProxy, createTargetHttpsProxy,
          World.record, hread, hcreate, callsAfter]
    · intro p e0 hread np
      cases heq : env.EqualResourceIDs p.UrlMap um.SelfLink
      · rcases hset : env.cloud.SetUrlMapForTargetHttpsProxy w.remote p um.SelfLink
          with ⟨_ | se, s1⟩
        · have hrun : checkHttpsProxy env l w = checkHttpsCerts env l p
              { remote := s1, log := w.log ++
                  [⟨Call.GetTargetHttpsProxy (env.TargetProxy l.Name Protocol.HTTPS), e0⟩,
                   ⟨Call.SetUrlMapForTargetHttpsProxy p um.SelfLink, none⟩] } := by
            simp [checkHttpsProxy, hum, hlen, getTargetHttpsProxy,
              setUrlMapForTargetHttpsProxy, World.record, hread, heq, hset]
          rw [hrun]
          rcases checkHttpsCerts_log env l p
              { remote := s1, log := w.log ++
                  [⟨Call.GetTargetHttpsProxy (env.TargetProxy l.Name Protocol.HTTPS), e0⟩,
                   ⟨Call.SetUrlMapForTargetHttpsProxy p um.SelfLink, none⟩] }
            with hlog | ⟨e, hlog⟩ <;>
          simp [callsAfter, hlog]
        · simp [checkHttpsProxy, hum, hlen, getTargetHttpsProxy,
            setUrlMapForTargetHttpsProxy, World.record, hread, heq, hset, callsAfter]
      · have hrun : checkHttpsProxy env l w = checkHttpsCerts env l p
            { remote := w.remote, log := w.log ++
                [⟨Call.GetTargetHttpsProxy (env.TargetProxy l.Name Protocol.HTTPS), e0⟩] } := by
          simp [checkHttpsProxy, hum, hlen, getTargetHttpsProxy, World.record, hread, heq]
        rw [hrun]
        rcases checkHttpsCerts_log env l p
            { remote := w.remote, log := w.log ++
                [⟨Call.GetTargetHttpsProxy (env.TargetProxy l.Name Protocol.HTTPS), e0⟩] }
          with hlog | ⟨e, hlog⟩ <;>
        simp [callsAfter, hlog]

/-- C3, amended, at the cloud whose first read fails with a 503: the create call
follows the failed read. -/
theorem initial_read_error_discarded_witness :
    lbNew.um = some (urlMap "um-new") ∧
    outageEnv.cloud.GetTargetHttpProxy outageWorld.remote "lb-http"
      = (none, some "googleapi: Error 503: backend unavailable") ∧
    ∃ rest, callsAfter 0 (checkProxy outageEnv lbNew outageWorld).world =
      Call.GetTargetHttpProxy "lb-http" ::
      Call.CreateTargetHttpProxy { Name := "lb-http", UrlMap := "um-new" } :: rest :=
  ⟨rfl, rfl, (initial_read_error_discarded outageEnv lbNew outageWorld (urlMap "um-new")
    rfl).1 (some "googleapi: Error 503: backend unavailable") rfl⟩

/-- C4: with a URL map set, when the initial read returns a proxy and the write calls
that are issued return no error, the calls logged by `checkProxy` are the read followed by one URL-map
rebind to `l.um.SelfLink` exactly when `EqualResourceIDs` rejects the proxy's URL map;
those logged by `checkHttpsProxy` (non-empty certificates) are the read, that rebind, and
then one certificate replace carrying the links of all certificates in order exactly when
`compareCerts` rejects the proxy's list.  No create is logged, the rebind precedes the
replace, and the nil error is returned. -/
theorem present_branch_writes (env : Env σ) (l : L7) (w : World σ) (um : UrlMap)
    (hum : l.um = some um) :
    (∀ proxy e0,
      env.cloud.GetTargetHttpProxy w.remote (env.TargetProxy l.Name Protocol.HTTP)
        = (some proxy, e0) →
      (env.EqualResourceIDs proxy.UrlMap um.SelfLink = false →
        (env.cloud.SetUrlMapForTargetHttpProxy w.remote proxy um.SelfLink).1 = none) →
      (checkProxy env l w).err = none ∧
      callsAfter w.log.length (checkProxy env l w).world =
        Call.GetTargetHttpProxy (env.TargetProxy l.Name Protocol.HTTP) ::
          (if env.EqualResourceIDs proxy.UrlMap um.SelfLink then []
           else [Call.SetUrlMapForTargetHttpProxy proxy um.SelfLink])) ∧
    (l.sslCerts ≠ [] → ∀ proxy e0,
      env.cloud.GetTargetHttpsProxy w.remote (env.TargetProxy l.Name Protocol.HTTPS)
        = (some proxy, e0) →
      (env.EqualResourceIDs proxy.UrlMap um.SelfLink = false →
        (env.cloud.SetUrlMapForTargetHttpsProxy w.remote proxy um.SelfLink).1 = none) →
      (env.compareCerts l.sslCerts proxy.SslCertificates = false →
        (env.cloud.SetSslCertificateForTargetHttpsProxy
          (if env.EqualResourceIDs proxy.UrlMap um.SelfLink then w.remote
           else (env.cloud.SetUrlMapForTargetHttpsProxy w.remote proxy um.SelfLink).2)
          proxy (certLinks l.sslCerts)).1 = none) →
      (checkHttpsProxy env l w).err = none ∧
      callsAfter w.log.length (checkHttpsProxy env l w).world =
        Call.GetTargetHttpsProxy (env.TargetProxy l.Name Protocol.HTTPS) ::
          ((if env.EqualResourceIDs proxy.UrlMap um.SelfLink then []
            else [Call.SetUrlMapForTargetHttpsProxy proxy um.SelfLink]) ++
           (if env.compareCerts l.sslCerts proxy.SslCertificates then []
            else [Call.SetSslCertificateForTargetHttpsProxy proxy
                    (l.sslCerts.map SslCertificate.SelfLink)]))) := by
  constructor
  · intro proxy e0 hread hset
    cases heq : env.EqualResourceIDs proxy.UrlMap um.SelfLink <;>
      simp [heq] at hset <;>
      simp [checkProxy, hum, getTargetHttpProxy, setUrlMapForTargetHttpProxy, World.record,
        hread, hset, heq, callsAfter]
  · intro hne proxy e0 hread hset hcert
    have hlen : ¬ l.sslCerts.length = 0 := by
      simpa [List.length_eq_zero] using hne
    cases heq : env.EqualResourceIDs proxy.UrlMap um.SelfLink <;>
      cases hcmp : env.compareCerts l.sslCerts proxy.SslCertificates <;>
      simp [heq, hcmp, certLinks_eq_map] at hset hcert <;>
      simp [checkHttpsProxy, checkHttpsCerts, hum, hlen, getTargetHttpsProxy,
        setUrlMapForTargetHttpsProxy, setSslCertificateForTargetHttpsProxy, World.record,
        hread, hset, hcert, heq, hcmp, callsAfter, certLinks_eq_map]

/-- C4, Scenarios B and C.  B: the TLS proxy is bound to `um-1` with `c1`, `c2` and the
intent is `um-1` with `c2`, `c1`; the read is the only call.  C: the TLS proxy is bound
to `um-old` with `c1` and the intent is `um-new` with `c1`, `c3`; the calls are the read,
the rebind, the replace. -/
theorem present_branch_writes_witness :
    (lbSwapped.um = some (urlMap "um-1") ∧ lbSwapped.sslCerts ≠ [] ∧
      (checkHttpsProxy exampleEnv lbSwapped matchingWorld).err = none ∧
      callsAfter 0 (checkHttpsProxy exampleEnv lbSwapped matchingWorld).world =
        [Call.GetTargetHttpsProxy "lb-https"]) ∧
    (lbTls.um = some (urlMap "um-new") ∧ lbTls.sslCerts ≠ [] ∧
      (checkHttpsProxy exampleEnv lbTls staleWorld).err = none ∧
      callsAfter 0 (checkHttpsProxy exampleEnv lbTls staleWorld).world =
        [Call.GetTargetHttpsProxy "lb-https",
         Call.SetUrlMapForTargetHttpsProxy oldTlsProxy "um-new",
         Call.SetSslCertificateForTargetHttpsProxy oldTlsProxy ["c1", "c3"]]) :=
  have hB := (present_branch_writes exampleEnv lbSwapped matchingWorld (urlMap "um-1") rfl).2
    (by decide) matchingTlsProxy none rfl (fun _ => rfl) (fun _ => rfl)
  have hC := (present_branch_writes exampleEnv lbTls staleWorld (urlMap "um-new") rfl).2
    (by decide) oldTlsProxy none rfl (fun _ => rfl) (fun _ => rfl)
  ⟨⟨rfl, by decide, hB.1, hB.2⟩, ⟨rfl, by decide, hC.1, hC.2⟩⟩

/-- C5: with a URL map set, when the initial read finds no proxy and the create call and
the follow-up read return no error, `checkProxy` (and `checkHttpsProxy` with a non-empty
certificate list) logs exactly the read, one create and one re-read, in this order; the
created resource carries the namer's name, the URL map's link and, for HTTPS, the links
of all certificates in the given order; the handle recorded is the result of the
re-read, the other fields of the receiver are kept, and the nil error is returned. -/
theorem create_path (env : Env σ) (l : L7) (w : World σ) (um : UrlMap)
    (hum : l.um = some um) :
    (∀ e0, env.cloud.GetTargetHttpProxy w.remote (env.TargetProxy l.Name Protocol.HTTP)
          = (none, e0) →
      (env.cloud.CreateTargetHttpProxy w.remote
        (newTargetHttpProxy (env.TargetProxy l.Name Protocol.HTTP) um)).1 = none →
      (env.cloud.GetTargetHttpProxy
        (env.cloud.CreateTargetHttpProxy w.remote
          (newTargetHttpProxy (env.TargetProxy l.Name Protocol.HTTP) um)).2
        (env.TargetProxy l.Name Protocol.HTTP)).2 = none →
      (checkProxy env l w).err = none ∧
      (checkProxy env l w).world.log = w.log ++
        [⟨Call.GetTargetHttpProxy (env.TargetProxy l.Name Protocol.HTTP), e0⟩,
         ⟨Call.CreateTargetHttpProxy
            (newTargetHttpProxy (env.TargetProxy l.Name Protocol.HTTP) um), none⟩,
         ⟨Call.GetTargetHttpProxy (env.TargetProxy l.Name Protocol.HTTP), none⟩] ∧
      (checkProxy env l w).l = { l with tp := (env.cloud.GetTargetHttpProxy
        (env.cloud.CreateTargetHttpProxy w.remote
          (newTargetHttpProxy (env.TargetProxy l.Name Protocol.HTTP) um)).2
        (env.TargetProxy l.Name Protocol.HTTP)).1 } ∧
      (newTargetHttpProxy (env.TargetProxy l.Name Protocol.HTTP) um).Name
        = env.TargetProxy l.Name Protocol.HTTP ∧
      (newTargetHttpProxy (env.TargetProxy l.Name Protocol.HTTP) um).UrlMap = um.SelfLink) ∧
    (l.sslCerts ≠ [] →
      ∀ e0, env.cloud.GetTargetHttpsProxy w.remote (env.TargetProxy l.Name Protocol.HTTPS)
          = (none, e0) →
      (env.cloud.CreateTargetHttpsProxy w.remote
        (newTargetHttpsProxy (env.TargetProxy l.Name Protocol.HTTPS) um l.sslCerts)).1 = none →
      (env.cloud.GetTargetHttpsProxy
        (env.cloud.CreateTargetHttpsProxy w.remote
          (newTargetHttpsProxy (env.TargetProxy l.Name Protocol.HTTPS) um l.sslCerts)).2
        (env.TargetProxy l.Name Protocol.HTTPS)).2 = none →
      (checkHttpsProxy env l w).err = none ∧
      (checkHttpsProxy env l w).world.log = w.log ++
        [⟨Call.GetTargetHttpsProxy (env.TargetProxy l.Name Protocol.HTTPS), e0⟩,
         ⟨Call.CreateTargetHttpsProxy
            (newTargetHttpsProxy (env.TargetProxy l.Name Protocol.HTTPS) um l.sslCerts), none⟩,
         ⟨Call.GetTargetHttpsProxy (env.TargetProxy l.Name Protocol.HTTPS), none⟩] ∧
      (checkHttpsProxy env l w).l = { l with tps := (env.cloud.GetTargetHttpsProxy
        (env.cloud.CreateTargetHttpsProxy w.remote
          (newTargetHttpsProxy (env.TargetProxy l.Name Protocol.HTTPS) um l.sslCerts)).2
        (env.TargetProxy l.Name Protocol.HTTPS)).1 } ∧
      (newTargetHttpsProxy (env.TargetProxy l.Name Protocol.HTTPS) um l.sslCerts).Name
        = env.TargetProxy l.Name Protocol.HTTPS ∧
      (newTargetHttpsProxy (env.TargetProxy l.Name Protocol.HTTPS) um l.sslCerts).UrlMap
        = um.SelfLink ∧
      (newTargetHttpsProxy (env.TargetProxy l.Name Protocol.HTTPS) um l.sslCerts).SslCertificates
        = l.sslCerts.map SslCertificate.SelfLink ∧
      (newTargetHttpsProxy (env.TargetProxy l.Name Protocol.HTTPS) um
        l.sslCerts).SslCertificates.length = l.sslCerts.length) := by
  constructor
  · intro e0 hread hcreate hreread
    simp [checkProxy, hum, getTargetHttpProxy, createTargetHttpProxy, World.record, hread,
      hcreate, hreread]
    simp [newTargetHttpProxy]
  · intro hne e0 hread hcreate hreread
    have hlen : ¬ l.sslCerts.length = 0 := by
      simpa [List.length_eq_zero] using hne
    simp [checkHttpsProxy, hum, hlen, getTargetHttpsProxy, createTargetHttpsProxy,
      World.record, hread, hcreate, hreread]
    simp [newTargetHttpsProxy, certLinks_eq_map]

/-- C5, at a load balancer with two certificates over the empty store (Scenario A with
certificates): read, create, re-read, and the handle is the created resource. -/
theorem create_path_witness :
    lbTls.um = some (urlMap "um-new") ∧ lbTls.sslCerts ≠ [] ∧
    (checkHttpsProxy exampleEnv lbTls emptyWorld).err = none ∧
    (checkHttpsProxy exampleEnv lbTls emptyWorld).world.log =
      [⟨Call.GetTargetHttpsProxy "lb-https", some errNotFound⟩,
       ⟨Call.CreateTargetHttpsProxy
          { Name := "lb-https", UrlMap := "um-new", SslCertificates := ["c1", "c3"] }, none⟩,
       ⟨Call.GetTargetHttpsProxy "lb-https", none⟩] ∧
    (checkHttpsProxy exampleEnv lbTls emptyWorld).l.tps =
      some { Name := "lb-https", UrlMap := "um-new", SslCertificates := ["c1", "c3"] } :=
  have h := (create_path exampleEnv lbTls emptyWorld (urlMap "um-new") rfl).2 (by decide)
    (some errNotFound) rfl rfl rfl
  ⟨rfl, by decide, h.1, h.2.1, by rw [h.2.2.1]; rfl⟩

/-- C6: with an empty `l.sslCerts`, `checkHttpsProxy` returns the nil error and leaves the
receiver and the world (remote state and call log) exactly as they were: it makes no
remote call, not even a read, whatever the remote state holds. -/
theorem checkHttpsProxy_empty_certs (env : Env σ) (l : L7) (w : World σ)
    (h : l.sslCerts = []) :
    (checkHttpsProxy env l w).err = none ∧ (checkHttpsProxy env l w).l = l ∧
    (checkHttpsProxy env l w).world = w ∧ callsAfter w.log.length (checkHttpsProxy env l w).world = [] := by
  simp [checkHttpsProxy, h, callsAfter]

/-- C6, at a load balancer without certificates over a store that holds a TLS proxy. -/
theorem checkHttpsProxy_empty_certs_witness :
    lbPlain.sslCerts = [] ∧
    (checkHttpsProxy exampleEnv lbPlain staleWorld).err = none ∧
    (checkHttpsProxy exampleEnv lbPlain staleWorld).l = lbPlain ∧
    (checkHttpsProxy exampleEnv lbPlain staleWorld).world.remote.Tps = [oldTlsProxy] ∧
    (checkHttpsProxy exampleEnv lbPlain staleWorld).world.log = [] :=
  have h := checkHttpsProxy_empty_certs exampleEnv lbPlain staleWorld rfl
  ⟨rfl, h.1, h.2.1, by rw [h.2.2.1]; rfl, by rw [h.2.2.1]; rfl⟩

/-- C7: whenever `checkProxy` or `checkHttpsProxy` returns an error, the receiver is left
as it was (so `l.tp` and `l.tps` are the handles from before the call), and the error is
either the missing-URL-map error, with the world untouched, or the error of the last
logged call, which comes after the initial read and after calls that returned no error.
On every path `checkProxy` keeps `l.tps` and `checkHttpsProxy` keeps `l.tp`. -/
theorem failure_atomicity (env : Env σ) (l : L7) (w : World σ) :
    (checkProxy env l w).l.tps = l.tps ∧ (checkHttpsProxy env l w).l.tp = l.tp ∧
    (∀ e, (checkProxy env l w).err = some e →
      (checkProxy env l w).l = l ∧
      ((l.um = none ∧ e = errNoUrlMap ∧ (checkProxy env l w).world = w) ∨
       (∃ e0 mid c, (checkProxy env l w).world.log = w.log ++
            (⟨Call.GetTargetHttpProxy (env.TargetProxy l.Name Protocol.HTTP), e0⟩ ::
              (mid ++ [⟨c, some e⟩])) ∧
          (∀ ev ∈ mid, ev.err = none) ∧
          (env.cloud.GetTargetHttpProxy w.remote (env.TargetProxy l.Name Protocol.HTTP)).2
            = e0))) ∧
    (∀ e, (checkHttpsProxy env l w).err = some e →
      (checkHttpsProxy env l w).l = l ∧
      ((l.um = none ∧ e = errNoUrlMapHttps l.Name ∧ (checkHttpsProxy env l w).world = w) ∨
       (∃ e0 mid c, (checkHttpsProxy env l w).world.log = w.log ++
            (⟨Call.GetTargetHttpsProxy (env.TargetProxy l.Name Protocol.HTTPS), e0⟩ ::
              (mid ++ [⟨c, some e⟩])) ∧
          (∀ ev ∈ mid, ev.err = none) ∧
          (env.cloud.GetTargetHttpsProxy w.remote (env.TargetProxy l.Name Protocol.HTTPS)).2
            = e0))) :=
  ⟨checkProxy_keeps_tps env l w, checkHttpsProxy_keeps_tp env l w,
   fun e herr => checkProxy_err_shape env l w e herr,
   fun e herr => checkHttpsProxy_err_shape env l w e herr⟩

/-- C7, at a store that rejects the URL-map rebind: the error is the store's, the receiver
is unchanged and the certificate replace is not attempted. -/
theorem failure_atomicity_witness :
    (checkHttpsProxy exampleEnv lbTls faultyWorld).err
      = some "googleapi: Error 403: quota exceeded" ∧
    (checkHttpsProxy exampleEnv lbTls faultyWorld).l = lbTls ∧
    callsAfter 0 (checkHttpsProxy exampleEnv lbTls faultyWorld).world =
      [Call.GetTargetHttpsProxy "lb-https",
       Call.SetUrlMapForTargetHttpsProxy oldTlsProxy "um-new"] :=
  ⟨rfl, ((failure_atomicity exampleEnv lbTls faultyWorld).2.2.2
      "googleapi: Error 403: quota exceeded" rfl).1, rfl⟩

/-- C8: over the store, with a URL map set, `EqualResourceIDs` accepting the link of
`l.um` against itself and `compareCerts` accepting the desired links, once `checkProxy`
(resp. `checkHttpsProxy`) has returned the nil error, running it again on the receiver
and world it left returns the nil error, logs no write call and leaves the remote store
as it was. -/
theorem idempotence (namer : String → Protocol → String)
    (eqIDs : String → String → Bool) (cmp : List SslCertificate → List String → Bool)
    (l : L7) (w : World Store) (um : UrlMap) (hum : l.um = some um)
    (hrefl : eqIDs um.SelfLink um.SelfLink = true)
    (hmatch : cmp l.sslCerts (l.sslCerts.map SslCertificate.SelfLink) = true) :
    ((checkProxy (storeEnv namer eqIDs cmp) l w).err = none →
      (checkProxy (storeEnv namer eqIDs cmp)
        (checkProxy (storeEnv namer eqIDs cmp) l w).l
        (checkProxy (storeEnv namer eqIDs cmp) l w).world).err = none ∧
      writesAfter (checkProxy (storeEnv namer eqIDs cmp) l w).world.log.length
        (checkProxy (storeEnv namer eqIDs cmp)
          (checkProxy (storeEnv namer eqIDs cmp) l w).l
          (checkProxy (storeEnv namer eqIDs cmp) l w).world).world = [] ∧
      (checkProxy (storeEnv namer eqIDs cmp)
        (checkProxy (storeEnv namer eqIDs cmp) l w).l
        (checkProxy (storeEnv namer eqIDs cmp) l w).world).world.remote
        = (checkProxy (storeEnv namer eqIDs cmp) l w).world.remote) ∧
    ((checkHttpsProxy (storeEnv namer eqIDs cmp) l w).err = none →
      (checkHttpsProxy (storeEnv namer eqIDs cmp)
        (checkHttpsProxy (storeEnv namer eqIDs cmp) l w).l
        (checkHttpsProxy (storeEnv namer eqIDs cmp) l w).world).err = none ∧
      writesAfter (checkHttpsProxy (storeEnv namer eqIDs cmp) l w).world.log.length
        (checkHttpsProxy (storeEnv namer eqIDs cmp)
          (checkHttpsProxy (storeEnv namer eqIDs cmp) l w).l
          (checkHttpsProxy (storeEnv namer eqIDs cmp) l w).world).world = [] ∧
      (checkHttpsProxy (storeEnv namer eqIDs cmp)
        (checkHttpsProxy (storeEnv namer eqIDs cmp) l w).l
        (checkHttpsProxy (storeEnv namer eqIDs cmp) l w).world).world.remote
        = (checkHttpsProxy (storeEnv namer eqIDs cmp) l w).world.remote) := by
  constructor
  · intro h1
    obtain ⟨q, hq, hurl⟩ := store_first_run_http namer eqIDs cmp l w um hum h1
    have hframe := checkProxy_frame (storeEnv namer eqIDs cmp) l w
    generalize checkProxy (storeEnv namer eqIDs cmp) l w = r1 at hq hframe ⊢
    have hum1 : r1.l.um = some um := by rw [hframe]; exact hum
    have hname : r1.l.Name = l.Name := by rw [hframe]
    have hread : (storeEnv namer eqIDs cmp).cloud.GetTargetHttpProxy r1.world.remote
        ((storeEnv namer eqIDs cmp).TargetProxy r1.l.Name Protocol.HTTP) = (some q, none) := by
      simp [storeEnv, storeCloud, hname, hq]
    have heq : (storeEnv namer eqIDs cmp).EqualResourceIDs q.UrlMap um.SelfLink = true := by
      rcases hurl with h | h
      · rw [h]; exact hrefl
      · exact h
    rw [checkProxy_converged _ r1.l r1.world um q none hum1 hread heq]
    simp [writesAfter, Call.isWrite]
  · intro h1
    by_cases hne : l.sslCerts = []
    · have h0 := checkHttpsProxy_empty_run (storeEnv namer eqIDs cmp) l w hne
      rw [h0]
      simp [checkHttpsProxy_empty_run _ l w hne, writesAfter]
    · obtain ⟨q, hq, hurl, hc⟩ := store_first_run_https namer eqIDs cmp l w um hum hne h1
      have hframe := checkHttpsProxy_frame (storeEnv namer eqIDs cmp) l w
      generalize checkHttpsProxy (storeEnv namer eqIDs cmp) l w = r1 at hq hframe ⊢
      have hum1 : r1.l.um = some um := by rw [hframe]; exact hum
      have hname : r1.l.Name = l.Name := by rw [hframe]
      have hcerts : r1.l.sslCerts = l.sslCerts := by rw [hframe]
      have hread : (storeEnv namer eqIDs cmp).cloud.GetTargetHttpsProxy r1.world.remote
          ((storeEnv namer eqIDs cmp).TargetProxy r1.l.Name Protocol.HTTPS)
            = (some q, none) := by
        simp [storeEnv, storeCloud, hname, hq]
      have heq : (storeEnv namer eqIDs cmp).EqualResourceIDs q.UrlMap um.SelfLink = true := by
        rcases hurl with h | h
        · rw [h]; exact hrefl
        · exact h
      have hcmp : (storeEnv namer eqIDs cmp).compareCerts r1.l.sslCerts q.SslCertificates
          = true := by
        rw [hcerts]
        rcases hc with h | h
        · rw [h]; exact hmatch
        · exact h
      rw [checkHttpsProxy_converged _ r1.l r1.world um q none hum1 (by rw [hcerts]; exact hne)
        hread heq hcmp]
      simp [writesAfter, Call.isWrite]

/-- C8, at the load balancer with two certificates over the store whose TLS proxy is
stale: the first run rebinds and replaces, the second logs the read only. -/
theorem idempotence_witness :
    lbTls.um = some (urlMap "um-new") ∧
    (checkHttpsProxy exampleEnv lbTls staleWorld).err = none ∧
    (checkHttpsProxy exampleEnv (checkHttpsProxy exampleEnv lbTls staleWorld).l
      (checkHttpsProxy exampleEnv lbTls staleWorld).world).err = none ∧
    writesAfter (checkHttpsProxy exampleEnv lbTls staleWorld).world.log.length
      (checkHttpsProxy exampleEnv (checkHttpsProxy exampleEnv lbTls staleWorld).l
        (checkHttpsProxy exampleEnv lbTls staleWorld).world).world = [] :=
  have h := (idempotence exampleNamer (fun a b => a == b) certsMatch lbTls staleWorld
    (urlMap "um-new") rfl (by decide) (by decide)).2 rfl
  ⟨rfl, rfl, h.1, h.2.1⟩

/-- C9, failing input: a cloud whose read reports the absent HTTPS proxy with a nil proxy
and a nil error.  `getSslCertLinkInUse` passes the `err != nil` test and evaluates
`proxy.SslCertificates` on the nil proxy: it dereferences an absent proxy instead of
returning an error, after one logged read. -/
theorem getSslCertLinkInUse_nil_dereference :
    silentEnv.cloud.GetTargetHttpsProxy emptyWorld.remote
      (silentEnv.TargetProxy lbTls.Name Protocol.HTTPS) = (none, none) ∧
    (getSslCertLinkInUse silentEnv lbTls emptyWorld).1 = CertLinkResult.nilDereference ∧
    (getSslCertLinkInUse silentEnv lbTls emptyWorld).2.log
      = [⟨Call.GetTargetHttpsProxy "lb-https", none⟩] := by
  refine ⟨rfl, rfl, rfl⟩

/-- C10, counterexample: over the store, with a client that leaves the object it is
handed untouched, after a successful rebind `checkProxy` records the proxy bound to
`um-old`, which `EqualResourceIDs` does not identify with the link of `l.um`, while the
store holds the rebound proxy; likewise `checkHttpsProxy` records the certificate list
`c1`, which the comparator rejects. -/
theorem stale_handle_recorded :
    (Aliased.checkProxy exampleEnv InPlace.untouched lbNew staleWorld).err = none ∧
    (Aliased.checkProxy exampleEnv InPlace.untouched lbNew staleWorld).l.tp
      = some oldProxy ∧
    exampleEnv.EqualResourceIDs oldProxy.UrlMap (urlMap "um-new").SelfLink = false ∧
    (Aliased.checkProxy exampleEnv InPlace.untouched lbNew staleWorld).world.remote.Tp
      = [{ Name := "lb-http", UrlMap := "um-new" }] ∧
    (Aliased.checkHttpsProxy exampleEnv InPlace.untouched lbTls staleWorld).err = none ∧
    (Aliased.checkHttpsProxy exampleEnv InPlace.untouched lbTls staleWorld).l.tps
      = some oldTlsProxy ∧
    exampleEnv.compareCerts lbTls.sslCerts oldTlsProxy.SslCertificates = false ∧
    (Aliased.checkHttpsProxy exampleEnv InPlace.untouched lbTls staleWorld).world.remote.Tps
      = [{ Name := "lb-https", UrlMap := "um-new", SslCertificates := ["c1", "c3"] }] := by
  refine ⟨rfl, rfl, by decide, rfl, rfl, rfl, by decide, rfl⟩

/-- C10, amended: over the store, with a URL map set, `EqualResourceIDs` accepting the
link of `l.um` against itself and `compareCerts` accepting the desired links, after a
successful `checkProxy` (resp. `checkHttpsProxy` with non-empty certificates): when no
proxy was stored under the name, the recorded handle has a URL map that
`EqualResourceIDs` identifies with the link of `l.um` and, for HTTPS, certificates that
`compareCerts` accepts; when a proxy was stored, the recorded handle is that object,
as it was read where the comparison accepted it and no write was issued, and otherwise
as the rebind call and then the certificate replace call it was handed to left it. -/
theorem recorded_handle (namer : String → Protocol → String)
    (eqIDs : String → String → Bool) (cmp : List SslCertificate → List String → Bool)
    (ip : InPlace Store) (l : L7) (w : World Store) (um : UrlMap) (hum : l.um = some um)
    (hrefl : eqIDs um.SelfLink um.SelfLink = true)
    (hmatch : cmp l.sslCerts (l.sslCerts.map SslCertificate.SelfLink) = true) :
    ((Aliased.checkProxy (storeEnv namer eqIDs cmp) ip l w).err = none →
      (w.remote.Tp.find? (fun p => p.Name == namer l.Name Protocol.HTTP) = none →
        ∃ h, (Aliased.checkProxy (storeEnv namer eqIDs cmp) ip l w).l.tp = some h ∧
          eqIDs h.UrlMap um.SelfLink = true) ∧
      (∀ p, w.remote.Tp.find? (fun p => p.Name == namer l.Name Protocol.HTTP) = some p →
        (Aliased.checkProxy (storeEnv namer eqIDs cmp) ip l w).l.tp =
          some (if eqIDs p.UrlMap um.SelfLink then p
                else ip.SetUrlMapForTargetHttpProxy w.remote p um.SelfLink))) ∧
    (l.sslCerts ≠ [] →
      (Aliased.checkHttpsProxy (storeEnv namer eqIDs cmp) ip l w).err = none →
      (w.remote.Tps.find? (fun p => p.Name == namer l.Name Protocol.HTTPS) = none →
        ∃ h, (Aliased.checkHttpsProxy (storeEnv namer eqIDs cmp) ip l w).l.tps = some h ∧
          eqIDs h.UrlMap um.SelfLink = true ∧
          cmp l.sslCerts h.SslCertificates = true) ∧
      (∀ p, w.remote.Tps.find? (fun p => p.Name == namer l.Name Protocol.HTTPS) = some p →
        (eqIDs p.UrlMap um.SelfLink = true →
          (Aliased.checkHttpsProxy (storeEnv namer eqIDs cmp) ip l w).l.tps =
            some (if cmp l.sslCerts p.SslCertificates then p
                  else ip.SetSslCertificateForTargetHttpsProxy w.remote p
                    (l.sslCerts.map SslCertificate.SelfLink))) ∧
        (eqIDs p.UrlMap um.SelfLink = false →
          (Aliased.checkHttpsProxy (storeEnv namer eqIDs cmp) ip l w).l.tps =
            some (if cmp l.sslCerts
                      (ip.SetUrlMapForTargetHttpsProxy w.remote p um.SelfLink).SslCertificates
                  then ip.SetUrlMapForTargetHttpsProxy w.remote p um.SelfLink
                  else ip.SetSslCertificateForTargetHttpsProxy
                    (storeCloud.SetUrlMapForTargetHttpsProxy w.remote p um.SelfLink).2
                    (ip.SetUrlMapForTargetHttpsProxy w.remote p um.SelfLink)
                    (l.sslCerts.map SslCertificate.SelfLink))))) := by
  constructor
  · intro h1
    constructor
    · intro hfind
      exact ⟨_, Aliased.store_create_handle_http namer eqIDs cmp ip l w um hum hfind h1,
        hrefl⟩
    · intro p hfind
      exact Aliased.checkProxy_present (storeEnv namer eqIDs cmp) ip l w um p none hum
        (by simp [storeEnv, storeCloud, hfind]) h1
  · intro hne h1
    constructor
    · intro hfind
      refine ⟨_, Aliased.store_create_handle_https namer eqIDs cmp ip l w um hum hne hfind h1,
        hrefl, ?_⟩
      simpa [newTargetHttpsProxy, certLinks_eq_map] using hmatch
    · intro p hfind
      exact Aliased.checkHttpsProxy_present (storeEnv namer eqIDs cmp) ip l w um p none
        hum hne (by simp [storeEnv, storeCloud, hfind]) h1

/-- C10, amended, over the empty store (create path) and over the stale store (present
path): with a client that updates the object in place the handle shows `um-new`, with
one that leaves it untouched the handle shows `um-old`. -/
theorem recorded_handle_witness :
    lbNew.um = some (urlMap "um-new") ∧
    (Aliased.checkProxy exampleEnv InPlace.untouched lbNew emptyWorld).err = none ∧
    (∃ h, (Aliased.checkProxy exampleEnv InPlace.untouched lbNew emptyWorld).l.tp = some h ∧
      exampleEnv.EqualResourceIDs h.UrlMap "um-new" = true) ∧
    (Aliased.checkProxy exampleEnv InPlace.updated lbNew staleWorld).err = none ∧
    (Aliased.checkProxy exampleEnv InPlace.updated lbNew staleWorld).l.tp
      = some { Name := "lb-http", UrlMap := "um-new" } ∧
    (Aliased.checkProxy exampleEnv InPlace.untouched lbNew staleWorld).l.tp
      = some oldProxy :=
  ⟨rfl, rfl,
   ((recorded_handle exampleNamer (fun a b => a == b) certsMatch InPlace.untouched lbNew
      emptyWorld (urlMap "um-new") rfl (by decide) (by decide)).1 rfl).1 rfl,
   rfl,
   ((recorded_handle exampleNamer (fun a b => a == b) certsMatch InPlace.updated lbNew
      staleWorld (urlMap "um-new") rfl (by decide) (by decide)).1 rfl).2 oldProxy rfl,
   ((recorded_handle exampleNamer (fun a b => a == b) certsMatch InPlace.untouched lbNew
      staleWorld (urlMap "um-new") rfl (by decide) (by decide)).1 rfl).2 oldProxy rfl⟩

end Loadbalancers
